import Mathlib

/-!
Verification of the hls-m3u8 playlist library (Go package `m3u8`) against its
natural-language specification.

The development shallowly embeds the package's data model and the operations
referenced by the claims, translated from the Go sources:

* data structures from the package's structure definitions
  (`MediaPlaylist`, `MasterPlaylist`, `MediaSegment`, `Key`, `Map`, `SCTE`,
  `DateRange`, `Define`, `SessionData`, `ContentSteering`, `Alternative`,
  `VariantParams`, `Variant`, `decodingState`);
* ring-buffer mutators and the encoder from `writer.go`
  (`NewMediaPlaylist`, `Append`, `AppendSegment`, `Remove`, `Slide`, `Close`,
  `SetTargetDuration`, `SetWinSize`, `Encode`, `calcNewTargetDuration`, ...);
* the line-based decoder from `reader.go`
  (`decode`, `decodeLineOfMasterPlaylist`, `decodeLineOfMediaPlaylist`,
  attribute scanning, `yesOrNo`, `trimLineEnd`, ...);
* the version calculator from `calcversion.go` (`CalcMinVersion`).

Modelling conventions:

* Go machine integers become `Nat` (unsigned) or `Int` (signed), with explicit
  range checks where Go's type forces them (e.g. `uint8` parse targets);
* Go `float64` values become `ℚ`; all concrete inputs exercised below carry
  durations that are exact in both binary floating point and `ℚ`, so rounding
  differences between the two representations do not arise;
* fallible Go functions return their error as an explicit value; a Go runtime
  panic (out-of-range slice index, nil-pointer dereference) is modelled by
  `Option.none` on the result;
* `time.Time` is modelled by the raw text of the timestamp (`GoTime`); the
  zero time is the empty string and formatting returns the stored text.  No
  claim checked here exercises time-parsing failures;
* custom-tag support (`CustomTag`, `CustomDecoder`, the `Custom` maps) is
  omitted: every decode modelled here runs with `customDecoders = nil`, in
  which case the custom maps stay `nil` and contribute nothing to decoding or
  encoding;
* Go `map` iteration order is unspecified; attribute maps are modelled as
  association lists in first-occurrence order with last-occurrence values,
  and every concrete input used below has pairwise distinct attribute keys.
-/

set_option linter.unusedVariables false

set_option maxRecDepth 200000

namespace M3u8

/-! ### Basic Go string helpers -/

/-- ASCII upper-casing of one character, as `strings.ToUpper` acts on the
ASCII subset (all inputs in scope are ASCII). -/
def goToUpperChar (c : Char) : Char :=
  if 'a' ≤ c ∧ c ≤ 'z' then Char.ofNat (c.toNat - 32) else c

/-- Model of `strings.ToUpper` on ASCII strings. -/
def goToUpper (s : String) : String :=
  ⟨s.data.map goToUpperChar⟩

/-- Model of `strings.HasPrefix` on character lists. -/
def startsWithL (s pre : List Char) : Bool :=
  pre.isPrefixOf s

/-- Drop a fixed number of leading characters, as Go's slicing `line[n:]`
does on the ASCII lines in scope. -/
def dropL (n : Nat) (s : List Char) : List Char :=
  s.drop n

/-- Model of `strings.Contains` for a single character. -/
def containsChar (s : List Char) (c : Char) : Bool :=
  s.contains c

/-- Model of `strings.Index(line, ",")`: index of the first comma, `none`
when absent (Go returns -1). -/
def indexOfComma (s : List Char) : Option Nat :=
  s.findIdx? (· = ',')

/-- Helper for `containsSub`: does `pat` occur in the list? -/
def containsSubAux (pat : List Char) : List Char → Bool
  | [] => pat.isPrefixOf ([] : List Char)
  | c :: rest => pat.isPrefixOf (c :: rest) || containsSubAux pat rest

/-- Substring test used only to state claims about encoder output. -/
def containsSub (s pat : String) : Bool :=
  containsSubAux pat.data s.data

/-- Model of `strings.Trim(v, cutset)` for the cutset `" \""` used by
`decodeAndTrimAttributes`: removes leading and trailing spaces and quotes. -/
def trimSpaceQuote (s : List Char) : List Char :=
  let cut : Char → Bool := fun c => c = ' ' ∨ c = '"'
  ((s.dropWhile cut).reverse.dropWhile cut).reverse

/-- Model of the package's `trimLineEnd`: removes one trailing `\n` or
`\r\n` from a line. -/
def trimLineEnd (line : List Char) : List Char :=
  match line.getLast? with
  | some '\n' =>
    match line.dropLast.getLast? with
    | some '\r' => line.dropLast.dropLast
    | _ => line.dropLast
  | _ => line

/-- Split an input into the chunks produced by repeated
`buf.ReadString('\n')`: each chunk keeps its trailing newline, and a final
chunk without a newline is returned as well (the Go loop processes it
together with `io.EOF`). -/
def readChunks : List Char → List Char → List (List Char)
  | cur, [] => if cur = [] then [] else [cur.reverse]
  | cur, c :: rest =>
    if c = '\n' then (c :: cur).reverse :: readChunks [] rest
    else readChunks (c :: cur) rest

/-! ### Numeric parsing helpers (strconv / fmt.Sscanf models) -/

/-- Leading decimal digits of a character list, with the rest. -/
def takeDigits (s : List Char) : List Char × List Char :=
  (s.takeWhile Char.isDigit, s.dropWhile Char.isDigit)

/-- Value of a digit list (most significant first). -/
def digitsToNat (ds : List Char) : Nat :=
  ds.foldl (fun acc c => acc * 10 + (c.toNat - '0'.toNat)) 0

/-- Model of `fmt.Sscanf(line, "<prefix>%d", &x)` for an unsigned target
after the fixed prefix has been removed: skips leading spaces, then needs at
least one digit; trailing input is ignored.  `bound` is the largest value the
Go target type can hold (`none` for `uint`/`uint64`, whose overflow is not
reachable on inputs in scope). -/
def sscanfUint (s : List Char) (bound : Option Nat) : Option Nat :=
  let s := s.dropWhile (· = ' ')
  let (ds, _) := takeDigits s
  if ds = [] then none
  else
    let v := digitsToNat ds
    match bound with
    | some b => if v ≤ b then some v else none
    | none => some v

/-- Model of `fmt.Sscanf(s, "%s", &x)`: the maximal run of non-space
characters. -/
def sscanfToken (s : List Char) : Option (List Char) :=
  let s := s.dropWhile (· = ' ')
  let t := s.takeWhile (· ≠ ' ')
  if t = [] then none else some t

/-- Model of `strconv.Atoi`: optional sign followed by digits, consuming the
whole string. -/
def atoi (s : List Char) : Option Int :=
  match s with
  | '-' :: rest =>
    let (ds, tail) := takeDigits rest
    if ds = [] ∨ tail ≠ [] then none else some (-(digitsToNat ds : Int))
  | '+' :: rest =>
    let (ds, tail) := takeDigits rest
    if ds = [] ∨ tail ≠ [] then none else some (digitsToNat ds : Int)
  | _ =>
    let (ds, tail) := takeDigits s
    if ds = [] ∨ tail ≠ [] then none else some (digitsToNat ds : Int)

/-- Model of `strconv.ParseInt(s, 10, 64)`: `atoi` plus the 64-bit range
check. -/
def parseInt64 (s : List Char) : Option Int :=
  match atoi s with
  | some v => if -(2 ^ 63) ≤ v ∧ v < 2 ^ 63 then some v else none
  | none => none

/-- Decimal fraction digits as a rational. -/
def fracValue (ds : List Char) : ℚ :=
  (digitsToNat ds : ℚ) / ((10 : ℚ) ^ ds.length)

/-- Model of `strconv.ParseFloat(s, 64)` on the decimal forms appearing in
playlists: optional sign, digits with an optional fractional part, optional
decimal exponent.  Hexadecimal floats, `Inf` and `NaN` are not modelled; the
value is represented exactly in `ℚ` (every concrete input in scope is exact
in binary floating point as well). -/
def parseFloatQ (s : List Char) : Option ℚ :=
  let (neg, s) := match s with
    | '-' :: rest => (true, rest)
    | '+' :: rest => (false, rest)
    | _ => (false, s)
  let (ipart, s) := takeDigits s
  let (fpart, s) := match s with
    | '.' :: rest => takeDigits rest
    | _ => ([], s)
  if ipart = [] ∧ fpart = [] then none
  else
    let mag : ℚ := (digitsToNat ipart : ℚ) + fracValue fpart
    let withExp : Option ℚ := match s with
      | [] => some mag
      | e :: rest =>
        if e = 'e' ∨ e = 'E' then
          let (eneg, rest) := match rest with
            | '-' :: r => (true, r)
            | '+' :: r => (false, r)
            | _ => (false, rest)
          let (eds, tail) := takeDigits rest
          if eds = [] ∨ tail ≠ [] then none
          else
            let ex := digitsToNat eds
            some (if eneg then mag / (10 : ℚ) ^ ex else mag * (10 : ℚ) ^ ex)
        else none
    match withExp with
    | some v => some (if neg then -v else v)
    | none => none

/-- Model of the `%q` verb of `fmt.Sscanf` on the quoted names appearing in
`EXT-X-DEFINE` lines: a double quote, at least the empty content without
escapes, and a closing double quote; returns the content and the rest. -/
def scanGoQuoted (s : List Char) : Option (List Char × List Char) :=
  match s with
  | '"' :: rest =>
    let (content, rest') := (rest.takeWhile (· ≠ '"'), rest.dropWhile (· ≠ '"'))
    match rest' with
    | '"' :: tail => some (content, tail)
    | _ => none
  | _ => none

/-! ### Numeric formatting helpers (strconv models) -/

/-- Model of `strconv.FormatUint(v, 10)` / `strconv.FormatInt` on
non-negative values. -/
def formatNat (n : Nat) : String :=
  toString n

/-- Model of `strconv.FormatInt(v, 10)`. -/
def formatInt (v : Int) : String :=
  toString v

/-- Go `math.Round`: round half away from zero. -/
def goRound (q : ℚ) : ℤ :=
  if 0 ≤ q then ⌊q + 1 / 2⌋ else -⌊-q + 1 / 2⌋

/-- Round a rational to the nearest integer with ties to even, the rounding
of `strconv.FormatFloat` at a fixed precision (on the exact decimal inputs
in scope the tie case never arises). -/
def roundHalfEven (q : ℚ) : ℤ :=
  let fl := ⌊q⌋
  let fr := q - fl
  if fr > 1 / 2 then fl + 1
  else if fr < 1 / 2 then fl
  else if fl % 2 = 0 then fl else fl + 1

/-- Left-pad a numeral with zeroes to three digits. -/
def pad3 (n : Nat) : String :=
  if n < 10 then "00" ++ toString n
  else if n < 100 then "0" ++ toString n
  else toString n

/-- Model of `strconv.FormatFloat(v, 'f', 3, _)`: sign, then the magnitude
rounded to fixed three decimals.  The `bitSize` argument only affects values
not exactly representable at that width, which does not happen for the
inputs in scope. -/
def formatFixed3 (q : ℚ) : String :=
  let sign := if q < 0 then "-" else ""
  let a := if q < 0 then -q else q
  let n := (roundHalfEven (a * 1000)).toNat
  sign ++ toString (n / 1000) ++ "." ++ pad3 (n % 1000)

/-- Fraction digits of a terminating decimal expansion, with fuel. -/
def fracDigits : Nat → ℚ → List Char
  | 0, _ => []
  | fuel + 1, q =>
    if q = 0 then []
    else
      let q10 := q * 10
      let d := ⌊q10⌋.toNat
      Char.ofNat ('0'.toNat + d) :: fracDigits fuel (q10 - ⌊q10⌋)

/-- Model of `strconv.FormatFloat(v, 'f', -1, 64)` (shortest form) on
rationals with terminating decimal expansion — the only values the encoder
prints in that format here.  Forty digits of fuel cover every `float64`. -/
def formatShortest (q : ℚ) : String :=
  let sign := if q < 0 then "-" else ""
  let a := if q < 0 then -q else q
  let ip := ⌊a⌋.toNat
  let frac := a - ⌊a⌋
  let ds := fracDigits 40 frac
  if ds = [] then sign ++ toString ip else sign ++ toString ip ++ "." ++ ⟨ds⟩

/-! ### Data model (structure definitions of the package) -/

/-- Error values of the package (`errors.New` variables plus the
`fmt.Errorf` shapes the claims exercise; the free-form message of wrapped
errors is carried as text). -/
inductive Err where
  | playlistFull
  | playlistEmpty
  | winSizeTooSmall (capacity winsize : Nat)
  | extM3UAbsent
  | notYesOrNo (value : String)
  | cannotDetectPlaylistType
  | danglingSCTE35DateRange
  | parseFailure (context : String)
  deriving DecidableEq, Repr

/-- Time values, modelled by the raw RFC 3339 text; the Go zero time is the
empty string and `Format(DATETIME)` returns the stored text. -/
structure GoTime where
  raw : String
  deriving DecidableEq, Repr

instance : Inhabited GoTime := ⟨⟨""⟩⟩

/-- Model of `time.Time.IsZero`. -/
def GoTime.IsZero (t : GoTime) : Bool :=
  t.raw = ""

/-- Model of `t.Format(DATETIME)` under the raw-text representation. -/
def GoTime.format (t : GoTime) : String := t.raw

/-- Model of the package-level `TimeParse` hook (default `FullTimeParse`);
parsing always succeeds and stores the raw text.  No claim verified below
exercises a time-parsing failure. -/
def timeParseModel (value : List Char) : GoTime × Option Err :=
  (⟨⟨value⟩⟩, none)

/-- ListType is the type of playlist (undetected, MASTER or MEDIA). -/
inductive ListType where
  | undetected
  | MASTER
  | MEDIA
  deriving DecidableEq, Repr, Inhabited

/-- MediaType is the EXT-X-PLAYLIST-TYPE tag value (0 for undefined in Go). -/
inductive MediaType where
  | undefined
  | EVENT
  | VOD
  deriving DecidableEq, Repr, Inhabited

/-- Comparison `p.MediaType > 0` of the Go code. -/
def MediaType.isSet : MediaType → Bool
  | .undefined => false
  | _ => true

/-- SCTE35Syntax defines the format of SCTE-35 cue points. -/
inductive SCTE35Syntax where
  | SCTE35_NONE
  | SCTE35_67_2014
  | SCTE35_OATCLS
  | SCTE35_DATERANGE
  deriving DecidableEq, Repr, Inhabited

/-- SCTE35CueType defines the type of cue point. -/
inductive SCTE35CueType where
  | SCTE35Cue_Start
  | SCTE35Cue_Mid
  | SCTE35Cue_End
  deriving DecidableEq, Repr, Inhabited

/-- Attribute is a raw key-value pair (quotes and `0x` included). -/
structure Attribute where
  Key : String
  Val : String
  deriving DecidableEq, Repr

/-- Key structure for stream encryption (EXT-X-KEY tag). -/
structure Key where
  Method : String
  URI : String
  IV : String
  Keyformat : String
  Keyformatversions : String
  deriving DecidableEq, Repr, Inhabited

/-- Map structure (EXT-X-MAP tag). -/
structure Map where
  URI : String := ""
  Limit : Int := 0
  Offset : Int := 0
  deriving DecidableEq, Repr, Inhabited

/-- DateRange corresponds to the EXT-X-DATERANGE tag. -/
structure DateRange where
  ID : String := ""
  Class : String := ""
  StartDate : GoTime := ⟨""⟩
  EndDate : Option GoTime := none
  Cue : String := ""
  Duration : Option ℚ := none
  PlannedDuration : Option ℚ := none
  XAttrs : List Attribute := []
  SCTE35Cmd : String := ""
  SCTE35Out : String := ""
  SCTE35In : String := ""
  EndOnNext : Bool := false
  deriving DecidableEq, Repr, Inhabited

/-- SCTE holds custom (non-DATERANGE) SCTE-35 tags. -/
structure SCTE where
  Syntax : SCTE35Syntax := .SCTE35_NONE
  CueType : SCTE35CueType := .SCTE35Cue_Start
  Cue : String := ""
  ID : String := ""
  Time : ℚ := 0
  Elapsed : ℚ := 0
  Duration : Option ℚ := none
  deriving DecidableEq, Repr, Inhabited

/-- DefineType of an EXT-X-DEFINE tag. -/
inductive DefineType where
  | VALUE
  | IMPORT
  | QUERYPARAM
  deriving DecidableEq, Repr, Inhabited

/-- Define represents an EXT-X-DEFINE tag.  The Go field `Type` is modelled
as `type` because `Type` is reserved in Lean. -/
structure Define where
  Name : String
  type : DefineType
  Value : String
  deriving DecidableEq, Repr

/-- SessionData represents an EXT-X-SESSION-DATA tag. -/
structure SessionData where
  DataId : String := ""
  Value : String := ""
  URI : String := ""
  Format : String := ""
  Language : String := ""
  deriving DecidableEq, Repr, Inhabited

/-- ContentSteering represents an EXT-X-CONTENT-STEERING tag. -/
structure ContentSteering where
  ServerURI : String := ""
  PathwayId : String := ""
  deriving DecidableEq, Repr, Inhabited

/-- Alternative represents an EXT-X-MEDIA tag.  The Go field `Type` is
modelled as `type` because `Type` is reserved in Lean. -/
structure Alternative where
  type : String := ""
  URI : String := ""
  GroupId : String := ""
  Language : String := ""
  AssocLanguage : String := ""
  Name : String := ""
  StableRenditionId : String := ""
  Default : Bool := false
  Autoselect : Bool := false
  Forced : Bool := false
  InstreamId : String := ""
  BitDepth : Nat := 0
  SampleRate : Nat := 0
  Characteristics : String := ""
  Channels : String := ""
  deriving DecidableEq, Repr, Inhabited

/-- MediaSegment represents a media segment of a media playlist.  Custom
segment tags are omitted (see the module conventions). -/
structure MediaSegment where
  SeqId : Nat := 0
  URI : String := ""
  Duration : ℚ := 0
  Title : String := ""
  Limit : Int := 0
  Offset : Int := 0
  Key : Option Key := none
  Map : Option Map := none
  Discontinuity : Bool := false
  SCTE : Option SCTE := none
  SCTE35DateRanges : List DateRange := []
  ProgramDateTime : GoTime := ⟨""⟩
  deriving DecidableEq, Repr, Inhabited

/-- MediaPlaylist represents a media playlist with its ring buffer of
segments.  A `nil` segment pointer of the Go slice is `Option.none`; the
`Custom`/`customDecoders` fields are omitted (see the module
conventions). -/
structure MediaPlaylist where
  TargetDuration : Nat := 0
  SeqNo : Nat := 0
  Segments : List (Option MediaSegment) := []
  Args : String := ""
  Defines : List Define := []
  Iframe : Bool := false
  Closed : Bool := false
  MediaType : MediaType := .undefined
  DiscontinuitySeq : Nat := 0
  StartTime : ℚ := 0
  StartTimePrecise : Bool := false
  Key : Option Key := none
  Map : Option Map := none
  DateRanges : List DateRange := []
  AllowCache : Option Bool := none
  winsize : Nat := 0
  capacity : Nat := 0
  head : Nat := 0
  tail : Nat := 0
  count : Nat := 0
  buf : String := ""
  scte35Syntax : SCTE35Syntax := .SCTE35_NONE
  ver : Nat := 0
  targetDurLocked : Bool := false
  independentSegments : Bool := false
  deriving DecidableEq, Repr, Inhabited

/-- VariantParams of an EXT-X-STREAM-INF / EXT-X-I-FRAME-STREAM-INF tag. -/
structure VariantParams where
  Bandwidth : Nat := 0
  AverageBandwidth : Nat := 0
  Score : ℚ := 0
  Codecs : String := ""
  SupplementalCodecs : String := ""
  Resolution : String := ""
  FrameRate : ℚ := 0
  HDCPLevel : String := ""
  AllowedCPC : String := ""
  VideoRange : String := ""
  ReqVideoLayout : String := ""
  StableVariantId : String := ""
  Audio : String := ""
  Video : String := ""
  Subtitles : String := ""
  Captions : String := ""
  PathwayId : String := ""
  Name : String := ""
  ProgramId : Option Int := none
  Iframe : Bool := false
  Alternatives : List Alternative := []
  deriving DecidableEq, Repr, Inhabited

/-- Variant represents one media playlist variant of a master playlist.  Go
embeds `VariantParams`; the embedding is modelled by an explicit field and
the parameter fields are reached through it. -/
structure Variant where
  URI : String := ""
  Chunklist : Option MediaPlaylist := none
  params : VariantParams := {}
  deriving DecidableEq, Repr, Inhabited

/-- MasterPlaylist represents a master (multivariant) playlist.  The
`Custom`/`customDecoders` fields are omitted (see the module
conventions). -/
structure MasterPlaylist where
  Variants : List Variant := []
  Args : String := ""
  StartTime : ℚ := 0
  StartTimePrecise : Bool := false
  Defines : List Define := []
  SessionDatas : List SessionData := []
  SessionKeys : List Key := []
  ContentSteering : Option ContentSteering := none
  buf : String := ""
  ver : Nat := 0
  independentSegments : Bool := false
  deriving DecidableEq, Repr, Inhabited

/-- Playlist is the union returned by the auto-detecting decoder. -/
inductive Playlist where
  | master (m : MasterPlaylist)
  | media (m : MediaPlaylist)
  deriving DecidableEq, Repr

/-- Internal decoding state (per-decode, custom-tag fields omitted). -/
structure decodingState where
  listType : ListType := .undetected
  m3u : Bool := false
  tagStreamInf : Bool := false
  tagInf : Bool := false
  tagSCTE35 : Bool := false
  tagRange : Bool := false
  tagDiscontinuity : Bool := false
  tagProgramDateTime : Bool := false
  tagKey : Bool := false
  tagMap : Bool := false
  programDateTime : GoTime := ⟨""⟩
  limit : Int := 0
  offset : Int := 0
  duration : ℚ := 0
  title : String := ""
  variant : Option Variant := none
  alternatives : List Alternative := []
  xkey : Option Key := none
  xmap : Option Map := none
  scte : Option SCTE := none
  scte35DateRanges : List DateRange := []
  deriving DecidableEq, Repr, Inhabited

/-- Minimal protocol version supported by the package. -/
def minVer : Nat := 3

/-! ### Writer: ring-buffer mutators (`writer.go`)

Go runtime panics (out-of-range slice index, nil-pointer dereference,
modulus by zero) are modelled by `Option.none` results.  Mutators that
return a Go `error` yield `some (state, some err)` with the state unchanged,
exactly as the Go methods return before mutating. -/

/-- Model of the Go slice store `a[i] = v`: `none` is the out-of-range
panic.  The backing slice is modelled as a list. -/
def goSliceStore (a : List (Option MediaSegment)) (i : Nat) (v : Option MediaSegment) :
    Option (List (Option MediaSegment)) :=
  if i < a.length then some (a.set i v) else none

/-- Helper `updateVersion`: raise the version if the new one is higher. -/
def updateVersion (ver newVer : Nat) : Nat :=
  if ver < newVer then newVer else ver

/-- Helper `strVer`. -/
def strVer (ver : Nat) : String :=
  formatNat ver

/-- Model of `calcNewTargetDuration`: ceiling for HLS version below 6,
half-away-from-zero rounding from version 6 on, never decreasing the old
value.  Go's `uint(...)` conversion of the (always non-negative here) float
is `Int.toNat`. -/
def calcNewTargetDuration (segDur : ℚ) (hlsVer : Nat) (oldTargetDuration : Nat) : Nat :=
  let nw : Nat := if hlsVer < 6 then ⌈segDur⌉.toNat else (goRound segDur).toNat
  if nw > oldTargetDuration then nw else oldTargetDuration

/-- Model of `MediaPlaylist.SetWinSize`. -/
def setWinSize (p : MediaPlaylist) (winsize : Nat) : Except Err MediaPlaylist :=
  if winsize > p.capacity then .error (.winSizeTooSmall p.capacity winsize)
  else .ok { p with winsize := winsize }

/-- Model of `NewMediaPlaylist`: version `minVer`, the requested capacity,
window-size check, and a backing array of `capacity` nil segments. -/
def newMediaPlaylist (winsize capacity : Nat) : Except Err MediaPlaylist :=
  let p : MediaPlaylist := { ver := minVer, capacity := capacity }
  match setWinSize p winsize with
  | .error e => .error e
  | .ok p => .ok { p with Segments := List.replicate capacity none }

/-- Model of `MediaPlaylist.last`: index of the previously written
segment. -/
def last (p : MediaPlaylist) : Nat :=
  if p.tail = 0 then p.capacity - 1 else p.tail - 1

/-- Model of `MediaPlaylist.Remove`: drop the head segment, advance `head`,
bump `SeqNo` unless the playlist is closed, reset the cache.  `none` is the
Go panic on `% capacity` with a zero capacity (unreachable from the
constructor, where `count > 0` forces `capacity > 0`). -/
def remove (p : MediaPlaylist) : Option (MediaPlaylist × Option Err) :=
  if p.count = 0 then some (p, some .playlistEmpty)
  else if p.capacity = 0 then none
  else
    some ({ p with
              head := (p.head + 1) % p.capacity
              count := p.count - 1
              SeqNo := if ¬p.Closed then p.SeqNo + 1 else p.SeqNo
              buf := "" }, none)

/-- Model of `MediaPlaylist.AppendSegment`.  The fullness test is
`head == tail && count > 0`; the appended segment receives sequence id
`SeqNo` on an empty ring and `last.SeqId + 1` otherwise; the target duration
updates only while not locked; the SCTE bookkeeping follows the source (the
sequential Go field assignments are collapsed into one record update; the
DATERANGE override of `scte35Syntax` takes precedence exactly as the later
assignment does); the cache is reset.  `none` models the Go panics:
indexing the backing slice out of range (in particular any append to a
zero-capacity playlist) and dereferencing a nil previous segment. -/
def appendSegment (p : MediaPlaylist) (seg : MediaSegment) : Option (MediaPlaylist × Option Err) :=
  if p.head = p.tail ∧ p.count > 0 then some (p, some .playlistFull)
  else
    let seqIdRes : Option Nat :=
      if p.count > 0 then
        if p.capacity = 0 then none
        else
          match p.Segments[(p.capacity + p.tail - 1) % p.capacity]? with
          | some (some prev) => some (prev.SeqId + 1)
          | _ => none
      else some p.SeqNo
    match seqIdRes with
    | none => none
    | some sid =>
      let seg := { seg with SeqId := sid }
      match goSliceStore p.Segments p.tail (some seg) with
      | none => none
      | some arr =>
        if p.capacity = 0 then none
        else
          some ({ p with
                    Segments := arr
                    tail := (p.tail + 1) % p.capacity
                    count := p.count + 1
                    TargetDuration :=
                      if ¬p.targetDurLocked then
                        calcNewTargetDuration seg.Duration p.ver p.TargetDuration
                      else p.TargetDuration
                    scte35Syntax :=
                      if seg.SCTE35DateRanges.length > 0 then SCTE35Syntax.SCTE35_DATERANGE
                      else
                        match seg.SCTE with
                        | some sc => sc.Syntax
                        | none => p.scte35Syntax
                    buf := "" }, none)

/-- Model of `MediaPlaylist.Append`: a fresh segment with the given URI,
duration and title, handed to `AppendSegment`. -/
def append (p : MediaPlaylist) (uri : String) (duration : ℚ) (title : String) :
    Option (MediaPlaylist × Option Err) :=
  appendSegment p { URI := uri, Duration := duration, Title := title }

/-- Model of `MediaPlaylist.Slide`: `Remove` when not closed and
`count ≥ winsize`, then `Append`; both errors are discarded. -/
def slide (p : MediaPlaylist) (uri : String) (duration : ℚ) (title : String) :
    Option MediaPlaylist :=
  match (if ¬p.Closed ∧ p.count ≥ p.winsize then remove p else some (p, none)) with
  | none => none
  | some (p1, _) =>
    match append p1 uri duration title with
    | none => none
    | some (p2, _) => some p2

/-- Model of `MediaPlaylist.ResetCache`. -/
def resetCache (p : MediaPlaylist) : MediaPlaylist :=
  { p with buf := "" }

/-- Model of `MediaPlaylist.Close`: append `#EXT-X-ENDLIST` to a non-empty
cache and set the closed flag. -/
def close (p : MediaPlaylist) : MediaPlaylist :=
  { p with
      buf := if p.buf.length > 0 then p.buf ++ "#EXT-X-ENDLIST\n" else p.buf
      Closed := true }

/-- Model of `MediaPlaylist.SetTargetDuration`: set and lock. -/
def setTargetDuration (p : MediaPlaylist) (duration : Nat) : MediaPlaylist :=
  { p with TargetDuration := duration, targetDurLocked := true }

/-- Model of `MediaPlaylist.SetVersion`; the Go parameter is a `uint8`. -/
def setVersion (p : MediaPlaylist) (ver : Nat) : MediaPlaylist :=
  { p with ver := ver % 256 }

/-- Mutate the segment the Go code reaches as `p.Segments[p.last()]`;
`none` models the panic on an out-of-range index or a nil segment
pointer. -/
def updateLastSegment (p : MediaPlaylist) (f : MediaSegment → MediaSegment) :
    Option MediaPlaylist :=
  match p.Segments[last p]? with
  | some (some s) =>
    (goSliceStore p.Segments (last p) (some (f s))).map fun arr => { p with Segments := arr }
  | _ => none

/-- Model of `MediaPlaylist.SetKey` (per-segment key). -/
def setKey (p : MediaPlaylist) (method uri iv keyformat keyformatversions : String) :
    Option (MediaPlaylist × Option Err) :=
  if p.count = 0 then some (p, some .playlistEmpty)
  else
    let p := if keyformat ≠ "" ∨ keyformatversions ≠ "" then
        { p with ver := updateVersion p.ver 5 }
      else p
    (updateLastSegment p fun s =>
      { s with Key := some ⟨method, uri, iv, keyformat, keyformatversions⟩ }).map (·, none)

/-- Model of `MediaPlaylist.SetMap` (per-segment map). -/
def setMap (p : MediaPlaylist) (uri : String) (limit offset : Int) :
    Option (MediaPlaylist × Option Err) :=
  if p.count = 0 then some (p, some .playlistEmpty)
  else
    let p := { p with ver := updateVersion p.ver 5 }
    (updateLastSegment p fun s => { s with Map := some ⟨uri, limit, offset⟩ }).map (·, none)

/-- Model of `MediaPlaylist.SetRange`. -/
def setRange (p : MediaPlaylist) (limit offset : Int) : Option (MediaPlaylist × Option Err) :=
  if p.count = 0 then some (p, some .playlistEmpty)
  else
    let p := { p with ver := updateVersion p.ver 4 }
    (updateLastSegment p fun s => { s with Limit := limit, Offset := offset }).map (·, none)

/-- Model of `MediaPlaylist.SetSCTE35`. -/
def setSCTE35 (p : MediaPlaylist) (scte35 : SCTE) : Option (MediaPlaylist × Option Err) :=
  if p.count = 0 then some (p, some .playlistEmpty)
  else (updateLastSegment p fun s => { s with SCTE := some scte35 }).map (·, none)

/-- Model of `MediaPlaylist.SetDiscontinuity`. -/
def setDiscontinuity (p : MediaPlaylist) : Option (MediaPlaylist × Option Err) :=
  if p.count = 0 then some (p, some .playlistEmpty)
  else (updateLastSegment p fun s => { s with Discontinuity := true }).map (·, none)

/-- Model of `MediaPlaylist.SetProgramDateTime`. -/
def setProgramDateTime (p : MediaPlaylist) (value : GoTime) :
    Option (MediaPlaylist × Option Err) :=
  if p.count = 0 then some (p, some .playlistEmpty)
  else (updateLastSegment p fun s => { s with ProgramDateTime := value }).map (·, none)

/-! ### Writer: the media-playlist encoder (`writer.go`) -/

/-- Helper `writeQuoted`. -/
def writeQuoted (key value : String) : String :=
  "," ++ key ++ "=\"" ++ value ++ "\""

/-- Helper `writeUnQuoted`. -/
def writeUnQuoted (key value : String) : String :=
  "," ++ key ++ "=" ++ value

/-- Helper `writeFloat` (`strconv.FormatFloat(v, 'f', 3, 64)`). -/
def writeFloatAttr (key : String) (value : ℚ) : String :=
  "," ++ key ++ "=" ++ formatFixed3 value

/-- Helper `writeYESorNO`. -/
def writeYESorNO (b : Bool) : String :=
  if b then "YES" else "NO"

/-- Model of `writeDateRange`: one EXT-X-DATERANGE line. -/
def writeDateRange (dr : DateRange) : String :=
  "#EXT-X-DATERANGE:ID=\"" ++ dr.ID ++ "\""
    ++ (if dr.Class ≠ "" then writeQuoted "CLASS" dr.Class else "")
    ++ writeQuoted "START-DATE" dr.StartDate.format
    ++ (if dr.Cue ≠ "" then writeUnQuoted "CUE" dr.Cue else "")
    ++ (match dr.EndDate with
        | some ed => writeQuoted "END-DATE" ed.format
        | none => "")
    ++ (match dr.Duration with
        | some d => writeFloatAttr "DURATION" d
        | none => "")
    ++ (match dr.PlannedDuration with
        | some d => writeFloatAttr "PLANNED-DURATION" d
        | none => "")
    ++ (if dr.SCTE35Cmd ≠ "" then writeUnQuoted "SCTE35-CMD" dr.SCTE35Cmd else "")
    ++ (if dr.SCTE35Out ≠ "" then writeUnQuoted "SCTE35-OUT" dr.SCTE35Out else "")
    ++ (if dr.SCTE35In ≠ "" then writeUnQuoted "SCTE35-IN" dr.SCTE35In else "")
    ++ (if dr.EndOnNext then ",END-ON-NEXT=YES" else "")
    ++ String.join (dr.XAttrs.map fun xa => writeUnQuoted xa.Key xa.Val)
    ++ "\n"

/-- Text of one EXT-X-KEY tag; `Encode` writes this same attribute sequence
for the default playlist key and for a per-segment key change. -/
def writeKeyTag (k : Key) : String :=
  "#EXT-X-KEY:METHOD=" ++ k.Method
    ++ (if k.Method ≠ "NONE" then
          ",URI=\"" ++ k.URI ++ "\""
            ++ (if k.IV ≠ "" then ",IV=" ++ k.IV else "")
            ++ (if k.Keyformat ≠ "" then ",KEYFORMAT=\"" ++ k.Keyformat ++ "\"" else "")
            ++ (if k.Keyformatversions ≠ "" then
                  ",KEYFORMATVERSIONS=\"" ++ k.Keyformatversions ++ "\""
                else "")
        else "")
    ++ "\n"

/-- Text of one EXT-X-MAP tag, written identically for the default playlist
map and for a per-segment map. -/
def writeMapTag (m : Map) : String :=
  "#EXT-X-MAP:URI=\"" ++ m.URI ++ "\""
    ++ (if m.Limit > 0 then ",BYTERANGE=" ++ formatInt m.Limit ++ "@" ++ formatInt m.Offset
        else "")
    ++ "\n"

/-- SCTE-35 tag lines written before a segment, per the `seg.SCTE.Syntax`
switch of `Encode` (the switch has no `SCTE35_DATERANGE` or `SCTE35_NONE`
case, so those write nothing; date-range cues live in
`seg.SCTE35DateRanges`).  Times use `strconv.FormatFloat(v, 'f', -1, 64)`. -/
def renderSegmentSCTE (sc : SCTE) : String :=
  match sc.Syntax with
  | .SCTE35_67_2014 =>
    "#EXT-SCTE35:CUE=\"" ++ sc.Cue ++ "\""
      ++ (if sc.ID ≠ "" then ",ID=\"" ++ sc.ID ++ "\"" else "")
      ++ (if sc.Time ≠ 0 then ",TIME=" ++ formatShortest sc.Time else "")
      ++ "\n"
  | .SCTE35_OATCLS =>
    match sc.CueType with
    | .SCTE35Cue_Start =>
      (if sc.Cue ≠ "" then "#EXT-OATCLS-SCTE35:" ++ sc.Cue ++ "\n" else "")
        ++ "#EXT-X-CUE-OUT:" ++ formatShortest sc.Time ++ "\n"
    | .SCTE35Cue_Mid =>
      "#EXT-X-CUE-OUT-CONT:ElapsedTime=" ++ formatShortest sc.Elapsed
        ++ ",Duration=" ++ formatShortest sc.Time ++ ",SCTE35=" ++ sc.Cue ++ "\n"
    | .SCTE35Cue_End => "#EXT-X-CUE-IN" ++ "\n"
  | _ => ""

/-- All lines `Encode` writes for one (non-nil) segment, in source order:
SCTE-35, SCTE-35 date-ranges, key change, discontinuity, segment map (only
without a default playlist map), program date-time, byte range, `#EXTINF`
(fixed three decimals; the Go duration-string cache only avoids repeated
formatting and never changes the text), then the URI with the optional
`?Args` query. -/
def renderSegment (p : MediaPlaylist) (seg : MediaSegment) : String :=
  (match seg.SCTE with
   | some sc => renderSegmentSCTE sc
   | none => "")
    ++ String.join (seg.SCTE35DateRanges.map writeDateRange)
    ++ (match seg.Key with
        | some k => if p.Key = none ∨ p.Key ≠ some k then writeKeyTag k else ""
        | none => "")
    ++ (if seg.Discontinuity then "#EXT-X-DISCONTINUITY\n" else "")
    ++ (if p.Map = none then
          match seg.Map with
          | some m => writeMapTag m
          | none => ""
        else "")
    ++ (if ¬seg.ProgramDateTime.IsZero then
          "#EXT-X-PROGRAM-DATE-TIME:" ++ seg.ProgramDateTime.format ++ "\n"
        else "")
    ++ (if seg.Limit > 0 then
          "#EXT-X-BYTERANGE:" ++ formatInt seg.Limit ++ "@" ++ formatInt seg.Offset ++ "\n"
        else "")
    ++ "#EXTINF:" ++ formatFixed3 seg.Duration ++ "," ++ seg.Title ++ "\n"
    ++ seg.URI ++ (if p.Args ≠ "" then "?" ++ p.Args else "") ++ "\n"

/-- The segment loop of `Encode`: starting at index `hd` with `i` segments
already emitted, walk `count` ring slots; emit while `i < winsize` or
`winsize = 0`, skipping nil slots (which still consume the loop counter).
`none` models the Go panics on an out-of-range index or `% 0`. -/
def renderSegmentsLoop (p : MediaPlaylist) (hd i : Nat) : Nat → Option String
  | 0 => some ""
  | count + 1 =>
    if i < p.winsize ∨ p.winsize = 0 then
      match p.Segments[hd]? with
      | none => none
      | some segOpt =>
        if p.capacity = 0 then none
        else
          let hd' := (hd + 1) % p.capacity
          match segOpt with
          | none => renderSegmentsLoop p hd' i count
          | some seg =>
            let i' := if p.winsize > 0 then i + 1 else i
            (renderSegmentsLoop p hd' i' count).map fun rest => renderSegment p seg ++ rest
    else some ""

/-- The full text `MediaPlaylist.Encode` writes on a cache miss, in source
order.  Custom playlist tags are omitted (no custom decoders in scope, the
`Custom` map stays nil). -/
def renderMediaPlaylist (p : MediaPlaylist) : Option String :=
  let header :=
    "#EXTM3U\n#EXT-X-VERSION:" ++ strVer p.ver ++ "\n"
      ++ (if p.independentSegments then "#EXT-X-INDEPENDENT-SEGMENTS\n" else "")
      ++ (match p.AllowCache with
          | some b => "#EXT-X-ALLOW-CACHE:" ++ writeYESorNO b ++ "\n"
          | none => "")
      ++ (match p.Key with
          | some k => writeKeyTag k
          | none => "")
      ++ (match p.Map with
          | some m => writeMapTag m
          | none => "")
      ++ (if p.MediaType.isSet then
            "#EXT-X-PLAYLIST-TYPE:"
              ++ (match p.MediaType with
                  | .EVENT => "EVENT\n"
                  | .VOD => "VOD\n"
                  | .undefined => "")
          else "")
      ++ "#EXT-X-MEDIA-SEQUENCE:" ++ formatNat p.SeqNo ++ "\n"
      ++ "#EXT-X-TARGETDURATION:" ++ formatInt (p.TargetDuration : Int) ++ "\n"
      ++ (if p.StartTime > 0 then
            "#EXT-X-START:TIME-OFFSET=" ++ formatShortest p.StartTime
              ++ (if p.StartTimePrecise then ",PRECISE=YES" else "") ++ "\n"
          else "")
      ++ (if p.DiscontinuitySeq ≠ 0 then
            "#EXT-X-DISCONTINUITY-SEQUENCE:" ++ formatNat p.DiscontinuitySeq ++ "\n"
          else "")
      ++ (if p.Iframe then "#EXT-X-I-FRAMES-ONLY\n" else "")
  match renderSegmentsLoop p p.head 0 p.count with
  | none => none
  | some segs =>
    some (header ++ segs
      ++ (if p.Closed then "#EXT-X-ENDLIST\n" else "")
      ++ String.join (p.DateRanges.map writeDateRange))

/-- Model of `MediaPlaylist.Encode`: return the cached buffer when it is
non-empty, otherwise render and cache.  The result pairs the updated
playlist with the returned bytes; `none` models a render panic. -/
def encode (p : MediaPlaylist) : Option (MediaPlaylist × String) :=
  if p.buf.length > 0 then some (p, p.buf)
  else
    match renderMediaPlaylist p with
    | none => none
    | some out => some ({ p with buf := out }, out)

/-! ### Reader: attribute scanning and tag parsers (`reader.go`) -/

/-- Character class `[a-zA-Z0-9_-]` of the `reKeyValue` regular
expression. -/
def isKeyChar (c : Char) : Bool :=
  c.isAlpha ∨ c.isDigit ∨ c = '_' ∨ c = '-'

/-- One attempted match of `reKeyValue` = `([a-zA-Z0-9_-]+)=("[^"]+"|[^",]+)`
at the start of `s`: a non-empty key, `=`, then either a quoted value with
non-empty content (captured with its quotes) or a non-empty run free of
quotes and commas.  Returns the captured pair and the remaining input. -/
def reKeyValueMatchAt (s : List Char) : Option ((String × String) × List Char) :=
  let key := s.takeWhile isKeyChar
  let rest := s.dropWhile isKeyChar
  if key = [] then none
  else
    match rest with
    | '=' :: rest2 =>
      match rest2 with
      | '"' :: rest3 =>
        let content := rest3.takeWhile (· ≠ '"')
        let rest4 := rest3.dropWhile (· ≠ '"')
        if content = [] then none
        else
          match rest4 with
          | '"' :: rest5 => some ((⟨key⟩, ⟨'"' :: (content ++ ['"'])⟩), rest5)
          | _ => none
      | _ =>
        let v := rest2.takeWhile fun c => c ≠ '"' ∧ c ≠ ','
        let rest3 := rest2.dropWhile fun c => c ≠ '"' ∧ c ≠ ','
        if v = [] then none else some ((⟨key⟩, ⟨v⟩), rest3)
    | _ => none

/-- Leftmost-first scan of `reKeyValue.FindAllStringSubmatch(line, -1)`:
try a match at every position from the left; on success continue after the
match.  The fuel is the input length; every step consumes at least one character. -/
def reKeyValueFindAllAux : Nat → List Char → List (String × String)
  | 0, _ => []
  | _ + 1, [] => []
  | fuel + 1, c :: tail =>
    match reKeyValueMatchAt (c :: tail) with
    | some (kv, rest) => kv :: reKeyValueFindAllAux fuel rest
    | none => reKeyValueFindAllAux fuel tail

/-- All `reKeyValue` matches of a line, in order. -/
def reKeyValueFindAll (s : List Char) : List (String × String) :=
  reKeyValueFindAllAux s.length s

/-- Insertion into the association-list model of a Go map: later values for
a key overwrite earlier ones in place (iteration order of a Go map is
unspecified; first-occurrence order is used and every input in scope has
distinct keys). -/
def insertAttr (out : List (String × String)) (k v : String) : List (String × String) :=
  if out.any (·.1 = k) then out.map fun kv => if kv.1 = k then (k, v) else kv
  else out ++ [(k, v)]

/-- Model of `decodeAndTrimAttributes`: key/value map with quotes and
spaces trimmed from the values. -/
def decodeAndTrimAttributes (line : List Char) : List (String × String) :=
  (reKeyValueFindAll line).foldl
    (fun out kv => insertAttr out kv.1 ⟨trimSpaceQuote kv.2.data⟩) []

/-- Model of `decodeAttributes`: ordered attributes with verbatim values. -/
def decodeAttributes (line : List Char) : List Attribute :=
  (reKeyValueFindAll line).map fun kv => ⟨kv.1, kv.2⟩

/-- Model of `DeQuote`: remove one pair of surrounding double quotes. -/
def DeQuote (s : String) : String :=
  if s.length < 2 then s
  else
    match s.data with
    | [] => s
    | c :: rest =>
      if c = '"' ∧ rest.getLast? = some '"' then ⟨rest.dropLast⟩ else s

/-- Model of `yesOrNo`: strict mode accepts exactly `YES`/`NO` and fails
otherwise with the `NotYesOrNo` error (Go wraps it with the offending
value); lax mode never fails and is true exactly for case-insensitive
`YES`. -/
def yesOrNo (v : String) (strict : Bool) : Bool × Option Err :=
  if strict then
    if v = "YES" then (true, none)
    else if v = "NO" then (false, none)
    else (false, some (.notYesOrNo v))
  else
    if goToUpper v = "YES" then (true, none) else (false, none)

/-- Model of `parseKeyParams` over an attribute list. -/
def parseKeyParams (parameters : List Char) : Key :=
  (decodeAttributes parameters).foldl
    (fun key attr =>
      if attr.Key = "METHOD" then { key with Method := attr.Val }
      else if attr.Key = "URI" then { key with URI := DeQuote attr.Val }
      else if attr.Key = "IV" then { key with IV := attr.Val }
      else if attr.Key = "KEYFORMAT" then { key with Keyformat := DeQuote attr.Val }
      else if attr.Key = "KEYFORMATVERSIONS" then
        { key with Keyformatversions := DeQuote attr.Val }
      else key)
    ⟨"", "", "", "", ""⟩

/-- Model of `parseContentSteering`. -/
def parseContentSteering (params : List Char) : ContentSteering :=
  (decodeAttributes params).foldl
    (fun cs attr =>
      if attr.Key = "SERVER-URI" then { cs with ServerURI := DeQuote attr.Val }
      else if attr.Key = "PATHWAY-ID" then { cs with PathwayId := DeQuote attr.Val }
      else cs)
    {}

/-- Model of `parseSessionData`: format defaults to `JSON`; an unknown
FORMAT fails.  The Go code slices the line by the length of a misspelled
constant, which happens to equal the length of `#EXT-X-SESSION-DATA:`
(twenty characters), so the model drops exactly the tag prefix. -/
def parseSessionData (line : List Char) : Except Err SessionData :=
  if ¬startsWithL line "#EXT-X-SESSION-DATA:".data then
    .error (.parseFailure "invalid EXT-X-SESSION-DATA line")
  else
    (decodeAttributes (dropL 20 line)).foldlM
      (fun sd attr =>
        if attr.Key = "DATA-ID" then .ok { sd with DataId := DeQuote attr.Val }
        else if attr.Key = "VALUE" then .ok { sd with Value := DeQuote attr.Val }
        else if attr.Key = "URI" then .ok { sd with URI := DeQuote attr.Val }
        else if attr.Key = "FORMAT" then
          if attr.Val = "JSON" ∨ attr.Val = "RAW" then .ok { sd with Format := attr.Val }
          else .error (.parseFailure "invalid FORMAT")
        else if attr.Key = "LANGUAGE" then .ok { sd with Language := DeQuote attr.Val }
        else .ok sd)
      { Format := "JSON" }

/-- Model of `parseDateRange`.  Time values are stored as raw text (the
modelled `time.Parse` always succeeds, see the module conventions);
DURATION and PLANNED-DURATION failures and malformed `0x` SCTE-35 payloads
fail regardless of strictness, as in the source. -/
def parseDateRange (line : List Char) : Except Err DateRange :=
  if ¬startsWithL line "#EXT-X-DATERANGE:".data then
    .error (.parseFailure "invalid date-range line")
  else
    (decodeAttributes (dropL 17 line)).foldlM
      (fun dr attr =>
        if attr.Key = "ID" then .ok { dr with ID := DeQuote attr.Val }
        else if attr.Key = "CLASS" then .ok { dr with Class := DeQuote attr.Val }
        else if attr.Key = "START-DATE" then
          .ok { dr with StartDate := ⟨DeQuote attr.Val⟩ }
        else if attr.Key = "END-DATE" then
          .ok { dr with EndDate := some ⟨DeQuote attr.Val⟩ }
        else if attr.Key = "CUE" then .ok { dr with Cue := attr.Val }
        else if attr.Key = "DURATION" then
          match parseFloatQ attr.Val.data with
          | some d => .ok { dr with Duration := some d }
          | none => .error (.parseFailure "invalid DURATION")
        else if attr.Key = "PLANNED-DURATION" then
          match parseFloatQ attr.Val.data with
          | some d => .ok { dr with PlannedDuration := some d }
          | none => .error (.parseFailure "invalid PLANNED-DURATION")
        else if attr.Key = "SCTE35-CMD" then
          if attr.Val.length ≤ 4 ∨ attr.Val.data.take 2 ≠ ['0', 'x'] then
            .error (.parseFailure "invalid SCTE35-CMD")
          else .ok { dr with SCTE35Cmd := attr.Val }
        else if attr.Key = "SCTE35-OUT" then
          if attr.Val.length ≤ 4 ∨ attr.Val.data.take 2 ≠ ['0', 'x'] then
            .error (.parseFailure "invalid SCTE35-OUT")
          else .ok { dr with SCTE35Out := attr.Val }
        else if attr.Key = "SCTE35-IN" then
          if attr.Val.length ≤ 4 ∨ attr.Val.data.take 2 ≠ ['0', 'x'] then
            .error (.parseFailure "invalid SCTE35-IN")
          else .ok { dr with SCTE35In := attr.Val }
        else if attr.Key = "END-ON-NEXT" then .ok { dr with EndOnNext := attr.Val = "YES" }
        else if startsWithL attr.Key.data "X-".data then
          .ok { dr with XAttrs := dr.XAttrs ++ [attr] }
        else .ok dr)
      {}

/-- Model of `parseExtXMedia` over the trimmed attribute map.  `BIT-DEPTH`
and `SAMPLE-RATE` failures are unconditional; `DEFAULT`/`AUTOSELECT`/`FORCED`
use `yesOrNo` (whose error the Go code wraps together with the offending
key and value); Go's `byte(...)`/`uint32(...)` conversions wrap modulo
2^8 / 2^32. -/
def parseExtXMedia (line : List Char) (strict : Bool) : Except Err Alternative :=
  if ¬startsWithL line "#EXT-X-MEDIA:".data then
    .error (.parseFailure "invalid line")
  else
    (decodeAndTrimAttributes (dropL 13 line)).foldlM
      (fun alt kv =>
        let k := kv.1
        let v := kv.2
        if k = "TYPE" then .ok { alt with type := v }
        else if k = "URI" then .ok { alt with URI := v }
        else if k = "GROUP-ID" then .ok { alt with GroupId := v }
        else if k = "LANGUAGE" then .ok { alt with Language := v }
        else if k = "ASSOC-LANGUAGE" then .ok { alt with AssocLanguage := v }
        else if k = "NAME" then .ok { alt with Name := v }
        else if k = "STABLE-RENDITION-ID" then .ok { alt with StableRenditionId := v }
        else if k = "DEFAULT" then
          match yesOrNo v strict with
          | (b, none) => .ok { alt with Default := b }
          | (_, some _) => .error (.notYesOrNo v)
        else if k = "AUTOSELECT" then
          match yesOrNo v strict with
          | (b, none) => .ok { alt with Autoselect := b }
          | (_, some _) => .error (.notYesOrNo v)
        else if k = "FORCED" then
          match yesOrNo v strict with
          | (b, none) => .ok { alt with Forced := b }
          | (_, some _) => .error (.notYesOrNo v)
        else if k = "INSTREAM-ID" then .ok { alt with InstreamId := v }
        else if k = "BIT-DEPTH" then
          match atoi v.data with
          | some n => .ok { alt with BitDepth := (n.emod 256).toNat }
          | none => .error (.parseFailure "invalid BIT-DEPTH")
        else if k = "SAMPLE-RATE" then
          match atoi v.data with
          | some n => .ok { alt with SampleRate := (n.emod (2 ^ 32)).toNat }
          | none => .error (.parseFailure "invalid SAMPLE-RATE")
        else if k = "CHARACTERISTICS" then .ok { alt with Characteristics := v }
        else if k = "CHANNELS" then .ok { alt with Channels := v }
        else .ok alt)
      {}

/-- Model of `parseExtXStreamInf` over the verbatim attribute list; numeric
failures are strict-gated and leave the Go zero value in place (the Go
assignment still runs with the parser's zero result in lax mode).  The
embedded `VariantParams` fields are reached through `params`. -/
def parseExtXStreamInf (line : List Char) (strict : Bool) : Except Err Variant :=
  let tagLen : Option Nat :=
    if startsWithL line "#EXT-X-STREAM-INF:".data then some 18
    else if startsWithL line "#EXT-X-I-FRAME-STREAM-INF:".data then some 26
    else none
  match tagLen with
  | none => .error (.parseFailure "invalid line")
  | some tagLen =>
    (decodeAttributes (dropL tagLen line)).foldlM
      (fun (v : Variant) (a : Attribute) =>
        if a.Key = "BANDWIDTH" then
          let r := atoi a.Val.data
          if strict ∧ r = none then .error (.parseFailure "invalid BANDWIDTH")
          else .ok { v with params.Bandwidth := ((r.getD 0).emod (2 ^ 32)).toNat }
        else if a.Key = "AVERAGE-BANDWIDTH" then
          let r := atoi a.Val.data
          if strict ∧ r = none then .error (.parseFailure "invalid AVERAGE-BANDWIDTH")
          else .ok { v with params.AverageBandwidth := ((r.getD 0).emod (2 ^ 32)).toNat }
        else if a.Key = "SCORE" then
          let r := parseFloatQ a.Val.data
          if strict ∧ r = none then .error (.parseFailure "invalid SCORE")
          else .ok { v with params.Score := r.getD 0 }
        else if a.Key = "CODECS" then .ok { v with params.Codecs := DeQuote a.Val }
        else if a.Key = "SUPPLEMENTAL-CODECS" then
          .ok { v with params.SupplementalCodecs := DeQuote a.Val }
        else if a.Key = "RESOLUTION" then .ok { v with params.Resolution := a.Val }
        else if a.Key = "FRAME-RATE" then
          let r := parseFloatQ a.Val.data
          if strict ∧ r = none then .error (.parseFailure "invalid FRAME-RATE")
          else .ok { v with params.FrameRate := r.getD 0 }
        else if a.Key = "HDCP-LEVEL" then .ok { v with params.HDCPLevel := a.Val }
        else if a.Key = "ALLOWED-CPC" then .ok { v with params.AllowedCPC := DeQuote a.Val }
        else if a.Key = "VIDEO-RANGE" then .ok { v with params.VideoRange := a.Val }
        else if a.Key = "REQ-VIDEO-LAYOUT" then
          .ok { v with params.ReqVideoLayout := DeQuote a.Val }
        else if a.Key = "STABLE-VARIANT-ID" then
          .ok { v with params.StableVariantId := DeQuote a.Val }
        else if a.Key = "AUDIO" then .ok { v with params.Audio := DeQuote a.Val }
        else if a.Key = "VIDEO" then .ok { v with params.Video := DeQuote a.Val }
        else if a.Key = "SUBTITLES" then .ok { v with params.Subtitles := DeQuote a.Val }
        else if a.Key = "CLOSED-CAPTIONS" then
          if a.Val = "NONE" then .ok { v with params.Captions := "NONE" }
          else .ok { v with params.Captions := DeQuote a.Val }
        else if a.Key = "PATHWAY-ID" then .ok { v with params.PathwayId := DeQuote a.Val }
        else if a.Key = "URI" then .ok { v with URI := DeQuote a.Val }
        else if a.Key = "PROGRAM-ID" then
          let r := atoi a.Val.data
          if strict ∧ r = none then .error (.parseFailure "invalid PROGRAM-ID")
          else .ok { v with params.ProgramId := some (r.getD 0) }
        else if a.Key = "NAME" then .ok { v with params.Name := DeQuote a.Val }
        else .ok v)
      {}

/-! ### Reader: line decoders and the auto-detecting decoder (`reader.go`) -/

/-- Computation monad for one decoded line: `throw` models a Go `return`
with the current state, the inner `Option` models a runtime panic. -/
abbrev GoStep (ρ : Type) := ExceptT ρ Option

/-- Lift a possibly-panicking operation into `GoStep`. -/
def ofOpt {ρ α : Type} (o : Option α) : GoStep ρ α :=
  ExceptT.mk (o.map .ok)

/-- Run a `GoStep` whose normal and early-return values coincide. -/
def runStep {ρ : Type} (m : GoStep ρ ρ) : Option ρ :=
  match m.run with
  | none => none
  | some (.error r) => some r
  | some (.ok r) => some r

/-- Signed variant of the `%d` scan (for `int64` targets): optional sign
and at least one digit, returning the value and the unconsumed rest. -/
def sscanfInt (s : List Char) : Option (Int × List Char) :=
  let s := s.dropWhile (· = ' ')
  match s with
  | '-' :: rest =>
    let (ds, tail) := takeDigits rest
    if ds = [] then none else some (-(digitsToNat ds : Int), tail)
  | _ =>
    let (ds, tail) := takeDigits s
    if ds = [] then none else some ((digitsToNat ds : Int), tail)

/-- Model of `strings.SplitN(s, "@", 2)`. -/
def splitAtSign (s : List Char) : List (List Char) :=
  match s.findIdx? (· = '@') with
  | none => [s]
  | some i => [s.take i, s.drop (i + 1)]

/-- Scan of `fmt.Sscanf(v, "%d@%d", &limit, &offset)` for the BYTERANGE
attribute of EXT-X-MAP: both values with the partial assignments Go
performs (the first `%d` may succeed and be stored even when the rest
fails). -/
def scanByteRange (v : List Char) : Option Int × Option Int :=
  match sscanfInt v with
  | none => (none, none)
  | some (l, rest) =>
    match rest with
    | '@' :: rest2 =>
      match sscanfInt rest2 with
      | some (o, _) => (some l, some o)
      | none => (some l, none)
    | _ => (some l, none)

/-- Modelled from the spec: `AppendDefine` — its defining file is not among
the provided sources (only call sites in `reader.go` are).  The spec states
that playlists own "an ordered list of `Define`" populated from
`EXT-X-DEFINE` tags, so the model appends the define; no failure mode is
described for the calls in scope. -/
def masterAppendDefine (p : MasterPlaylist) (d : Define) : MasterPlaylist × Option Err :=
  ({ p with Defines := p.Defines ++ [d] }, none)

/-- Modelled from the spec: media-playlist `AppendDefine` (see
`masterAppendDefine`); the media call site discards the result. -/
def mediaAppendDefine (p : MediaPlaylist) (d : Define) : MediaPlaylist :=
  { p with Defines := p.Defines ++ [d] }

/-- Update the last appended variant.  Go keeps `state.variant` as a
pointer into `p.Variants`; both `EXT-X-STREAM-INF` and
`EXT-X-I-FRAME-STREAM-INF` append the pointee and store the pointer, so the
pointee is always the final list element and the aliased write
`state.variant.URI = line` is modelled by rewriting that element. -/
def replaceLastVariant (l : List Variant) (v : Variant) : List Variant :=
  l.dropLast ++ [v]

/-- Parse of `#EXT-X-DEFINE:NAME=%q,VALUE=%q`. -/
def scanDefineNameValue (line : List Char) : Option (String × String) :=
  match scanGoQuoted (dropL 19 line) with
  | none => none
  | some (name, rest) =>
    if startsWithL rest ",VALUE=".data then
      match scanGoQuoted (dropL 7 rest) with
      | none => none
      | some (value, _) => some (⟨name⟩, ⟨value⟩)
    else none

/-- Model of `decodeLineOfMasterPlaylist`: one line of master-playlist
decoding (custom decoders are nil in scope and skipped).  The cases appear
in source order; `none` models the panic of the aliased variant-URI write
with no pending variant (unreachable, the flag and the pointer are set
together). -/
def decodeLineOfMasterPlaylist (p0 : MasterPlaylist) (st0 : decodingState)
    (line : List Char) (strict : Bool) :
    Option (MasterPlaylist × decodingState × Option Err) :=
  runStep (ρ := MasterPlaylist × decodingState × Option Err) do
    let mut p := p0
    let mut st := st0
    let mut err : Option Err := none
    if line = "#EXTM3U".data then
      st := { st with m3u := true }
    else if startsWithL line "#EXT-X-VERSION:".data then
      match sscanfUint (dropL 15 line) (some 255) with
      | some v => p := { p with ver := v }
      | none =>
        err := some (.parseFailure "EXT-X-VERSION")
        if strict then throw (p, st, err)
    else if line = "#EXT-X-INDEPENDENT-SEGMENTS".data then
      p := { p with independentSegments := true }
    else if startsWithL line "#EXT-X-MEDIA:".data then
      st := { st with listType := .MASTER }
      match parseExtXMedia line strict with
      | .error e => throw (p, st, some e)
      | .ok alt => st := { st with alternatives := st.alternatives ++ [alt] }
    else if ¬st.tagStreamInf ∧ startsWithL line "#EXT-X-STREAM-INF:".data then
      st := { st with tagStreamInf := true, listType := .MASTER }
      match parseExtXStreamInf line strict with
      | .error e => throw (p, st, some e)
      | .ok variant =>
        st := { st with variant := some variant }
        p := { p with Variants := p.Variants ++ [variant] }
    else if st.tagStreamInf ∧ ¬startsWithL line "#".data then
      st := { st with tagStreamInf := false }
      match st.variant with
      | none => ofOpt (none : Option Unit)
      | some v =>
        let v := { v with URI := ⟨line⟩ }
        st := { st with variant := some v }
        p := { p with Variants := replaceLastVariant p.Variants v }
    else if startsWithL line "#EXT-X-I-FRAME-STREAM-INF:".data then
      st := { st with listType := .MASTER }
      match parseExtXStreamInf line strict with
      | .error e => throw (p, st, some e)
      | .ok variant =>
        let variant := { variant with params.Iframe := true }
        st := { st with variant := some variant }
        p := { p with Variants := p.Variants ++ [variant] }
    else if startsWithL line "#EXT-X-DEFINE:".data then
      if startsWithL line "#EXT-X-DEFINE:NAME=".data then
        match scanDefineNameValue line with
        | none => throw (p, st, some (.parseFailure "error parsing EXT-X-DEFINE"))
        | some (name, value) =>
          let (p', e) := masterAppendDefine p { Name := name, type := .VALUE, Value := value }
          p := p'
          if e ≠ none then throw (p, st, e)
      else if startsWithL line "#EXT-X-DEFINE:QUERYPARAM=".data then
        match scanGoQuoted (dropL 25 line) with
        | none => throw (p, st, some (.parseFailure "error parsing EXT-X-DEFINE"))
        | some (name, _) =>
          let (p', e) := masterAppendDefine p { Name := ⟨name⟩, type := .QUERYPARAM, Value := "" }
          p := p'
          if e ≠ none then throw (p, st, e)
      else if startsWithL line "#EXT-X-DEFINE:IMPORT=".data then
        throw (p, st, some (.parseFailure "EXT-X-DEFINE IMPORT not allowed in master playlist"))
      else
        throw (p, st, some (.parseFailure "unknown EXT-X-DEFINE format"))
    else if startsWithL line "#EXT-X-SESSION-DATA:".data then
      match parseSessionData line with
      | .error e => throw (p, st, some e)
      | .ok sd => p := { p with SessionDatas := p.SessionDatas ++ [sd] }
    else if startsWithL line "#EXT-X-SESSION-KEY:".data then
      p := { p with SessionKeys := p.SessionKeys ++ [parseKeyParams (dropL 19 line)] }
    else if startsWithL line "#EXT-X-CONTENT-STEERING:".data then
      p := { p with ContentSteering := some (parseContentSteering (dropL 24 line)) }
    pure (p, st, err)

/-- The bare-URI case of `decodeLineOfMediaPlaylist`: append the pending
segment (auto-extending a full ring by doubling and retrying once), then
attach the buffered byte range, SCTE-35 cue or date-ranges, discontinuity,
program date-time, key and map, in source order.  Go's early `return`s and
the lax-mode error carrying are modelled exactly; `none` models panics of
the direct `p.Segments[p.last()]` accesses. -/
def handleMediaURILine (p0 : MediaPlaylist) (st0 : decodingState)
    (line : List Char) (strict : Bool) :
    Option (MediaPlaylist × decodingState × Option Err) :=
  runStep (ρ := MediaPlaylist × decodingState × Option Err) do
    let mut p := p0
    let mut st := st0
    let mut err : Option Err := none
    if st.tagInf then
      let (p1, e1) ← ofOpt (append p ⟨line⟩ st.duration st.title)
      if e1 = some Err.playlistFull then
        let pext := { p with Segments := p.Segments ++ List.replicate p.count none }
        let pext := { pext with capacity := pext.Segments.length, tail := p.count }
        let (p2, e2) ← ofOpt (append pext ⟨line⟩ st.duration st.title)
        p := p2
        err := e2
      else
        p := p1
        err := e1
      if err ≠ none then throw (p, st, err)
      st := { st with tagInf := false }
    if st.tagRange then
      let (p', e) ← ofOpt (setRange p st.limit st.offset)
      p := p'
      err := e
      if strict ∧ err ≠ none then throw (p, st, err)
      st := { st with tagRange := false }
    if st.tagSCTE35 then
      st := { st with tagSCTE35 := false }
      match st.scte with
      | none =>
        let p' ← ofOpt (updateLastSegment p fun s =>
          { s with SCTE35DateRanges := st.scte35DateRanges })
        p := { p' with scte35Syntax := .SCTE35_DATERANGE }
        st := { st with scte35DateRanges := [] }
      | some sc =>
        let (p', e) ← ofOpt (setSCTE35 p sc)
        p := p'
        err := e
        if strict ∧ err ≠ none then throw (p, st, err)
        p := { p with scte35Syntax := sc.Syntax }
        st := { st with scte := none }
    if st.tagDiscontinuity then
      st := { st with tagDiscontinuity := false }
      let (p', e) ← ofOpt (setDiscontinuity p)
      p := p'
      err := e
      if strict ∧ err ≠ none then throw (p, st, err)
    if st.tagProgramDateTime ∧ p.count > 0 then
      st := { st with tagProgramDateTime := false }
      let (p', e) ← ofOpt (setProgramDateTime p st.programDateTime)
      p := p'
      err := e
      if strict ∧ err ≠ none then throw (p, st, err)
    if st.tagKey then
      match st.xkey with
      | none => ofOpt (none : Option Unit)
      | some xk =>
        let p' ← ofOpt (updateLastSegment p fun s =>
          { s with Key := some ⟨xk.Method, xk.URI, xk.IV, xk.Keyformat, xk.Keyformatversions⟩ })
        p := if p'.Key = none then { p' with Key := some xk } else p'
        st := { st with tagKey := false }
    if st.tagMap then
      match st.xmap with
      | none => ofOpt (none : Option Unit)
      | some xm =>
        let p' ← ofOpt (updateLastSegment p fun s =>
          { s with Map := some ⟨xm.URI, xm.Limit, xm.Offset⟩ })
        p := if p'.Map = none then { p' with Map := some xm } else p'
        st := { st with tagMap := false }
    pure (p, st, err)

/-- Model of `decodeLineOfMediaPlaylist` (custom decoders are nil in scope
and skipped).  The switch cases appear in source order; lax-mode parse
errors are carried in the returned error value exactly where the source
assigns `err` without returning. -/
def decodeLineOfMediaPlaylist (p0 : MediaPlaylist) (st0 : decodingState)
    (line : List Char) (strict : Bool) :
    Option (MediaPlaylist × decodingState × Option Err) :=
  runStep (ρ := MediaPlaylist × decodingState × Option Err) do
    let mut p := p0
    let mut st := st0
    let mut err : Option Err := none
    if line = "#EXT-X-INDEPENDENT-SEGMENTS".data then
      p := { p with independentSegments := true }
    else if ¬st.tagInf ∧ startsWithL line "#EXTINF:".data then
      st := { st with tagInf := true, listType := .MEDIA }
      let mut sepIndex := 0
      match indexOfComma line with
      | none =>
        if strict then throw (p, st, some (.parseFailure "could not parse EXTINF"))
        sepIndex := line.length
      | some i => sepIndex := i
      let duration := (line.drop 8).take (sepIndex - 8)
      if duration.length > 0 then
        match parseFloatQ duration with
        | some d => st := { st with duration := d }
        | none =>
          st := { st with duration := 0 }
          err := some (.parseFailure "duration parsing error")
          if strict then throw (p, st, err)
      if line.length > sepIndex then
        st := { st with title := ⟨line.drop (sepIndex + 1)⟩ }
    else if ¬startsWithL line "#".data then
      let out ← ofOpt (handleMediaURILine p st line strict)
      throw out
    else if line = "#EXTM3U".data then
      st := { st with m3u := true }
    else if line = "#EXT-X-ENDLIST".data then
      st := { st with listType := .MEDIA }
      p := { p with Closed := true }
    else if startsWithL line "#EXT-X-VERSION:".data then
      match sscanfUint (dropL 15 line) (some 255) with
      | some v => p := { p with ver := v }
      | none =>
        err := some (.parseFailure "EXT-X-VERSION")
        if strict then throw (p, st, err)
    else if startsWithL line "#EXT-X-TARGETDURATION:".data then
      st := { st with listType := .MEDIA }
      match sscanfUint (dropL 22 line) none with
      | some v => p := { p with TargetDuration := v }
      | none =>
        err := some (.parseFailure "EXT-X-TARGETDURATION")
        if strict then throw (p, st, err)
    else if startsWithL line "#EXT-X-MEDIA-SEQUENCE:".data then
      st := { st with listType := .MEDIA }
      match sscanfUint (dropL 22 line) none with
      | some v => p := { p with SeqNo := v }
      | none =>
        err := some (.parseFailure "EXT-X-MEDIA-SEQUENCE")
        if strict then throw (p, st, err)
    else if startsWithL line "#EXT-X-DEFINE:".data then
      if startsWithL line "#EXT-X-DEFINE:NAME=".data then
        match scanDefineNameValue line with
        | none => throw (p, st, some (.parseFailure "error parsing EXT-X-DEFINE"))
        | some (name, value) =>
          p := mediaAppendDefine p { Name := name, type := .VALUE, Value := value }
      else if startsWithL line "#EXT-X-DEFINE:QUERYPARAM=".data then
        match scanGoQuoted (dropL 25 line) with
        | none => throw (p, st, some (.parseFailure "error parsing EXT-X-DEFINE"))
        | some (name, _) =>
          p := mediaAppendDefine p { Name := ⟨name⟩, type := .QUERYPARAM, Value := "" }
      else if startsWithL line "#EXT-X-DEFINE:IMPORT=".data then
        match scanGoQuoted (dropL 21 line) with
        | none => throw (p, st, some (.parseFailure "error parsing EXT-X-DEFINE"))
        | some (name, _) =>
          p := mediaAppendDefine p { Name := ⟨name⟩, type := .IMPORT, Value := "" }
      else
        throw (p, st, some (.parseFailure "unknown EXT-X-DEFINE format"))
    else if startsWithL line "#EXT-X-PLAYLIST-TYPE:".data then
      st := { st with listType := .MEDIA }
      match sscanfToken (dropL 21 line) with
      | none =>
        err := some (.parseFailure "EXT-X-PLAYLIST-TYPE")
        if strict then throw (p, st, err)
      | some tok =>
        if tok = "EVENT".data then p := { p with MediaType := .EVENT }
        else if tok = "VOD".data then p := { p with MediaType := .VOD }
    else if startsWithL line "#EXT-X-DISCONTINUITY-SEQUENCE:".data then
      st := { st with listType := .MEDIA }
      match sscanfUint (dropL 30 line) none with
      | some v => p := { p with DiscontinuitySeq := v }
      | none =>
        err := some (.parseFailure "EXT-X-DISCONTINUITY-SEQUENCE")
        if strict then throw (p, st, err)
    else if startsWithL line "#EXT-X-START:".data then
      st := { st with listType := .MEDIA }
      for kv in decodeAndTrimAttributes (dropL 13 line) do
        if kv.1 = "TIME-OFFSET" then
          match parseFloatQ kv.2.data with
          | none => throw (p, st, some (.parseFailure "invalid TIME-OFFSET"))
          | some q => p := { p with StartTime := q }
        else if kv.1 = "PRECISE" then
          p := { p with StartTimePrecise := kv.2 = "YES" }
    else if startsWithL line "#EXT-X-KEY:".data then
      st := { st with listType := .MEDIA }
      st := { st with xkey := some (parseKeyParams (dropL 11 line)), tagKey := true }
    else if startsWithL line "#EXT-X-MAP:".data then
      st := { st with listType := .MEDIA, xmap := some {} }
      for kv in decodeAndTrimAttributes (dropL 11 line) do
        if kv.1 = "URI" then
          st := { st with xmap := some { (st.xmap.getD {}) with URI := kv.2 } }
        else if kv.1 = "BYTERANGE" then
          let (l, o) := scanByteRange kv.2.data
          let xm := st.xmap.getD {}
          let xm := match l with
            | some lv => { xm with Limit := lv }
            | none => xm
          let xm := match o with
            | some ov => { xm with Offset := ov }
            | none => xm
          st := { st with xmap := some xm }
          if o = none then
            err := some (.parseFailure "byterange sub-range length value parsing error")
            if strict then throw (p, st, err)
      st := { st with tagMap := true }
    else if ¬st.tagProgramDateTime ∧ startsWithL line "#EXT-X-PROGRAM-DATE-TIME:".data then
      st := { st with tagProgramDateTime := true, listType := .MEDIA }
      let (t, e) := timeParseModel (dropL 25 line)
      st := { st with programDateTime := t }
      err := e
      if strict ∧ err ≠ none then throw (p, st, err)
    else if ¬st.tagRange ∧ startsWithL line "#EXT-X-BYTERANGE:".data then
      st := { st with tagRange := true, listType := .MEDIA, offset := 0 }
      let params := splitAtSign (dropL 17 line)
      match parseInt64 (params.getD 0 []) with
      | some l => st := { st with limit := l }
      | none =>
        st := { st with limit := 0 }
        err := some (.parseFailure "byterange sub-range length value parsing error")
        if strict then throw (p, st, err)
      if params.length > 1 then
        match parseInt64 (params.getD 1 []) with
        | some o => st := { st with offset := o }
        | none =>
          st := { st with offset := 0 }
          err := some (.parseFailure "byterange sub-range offset value parsing error")
          if strict then throw (p, st, err)
    else if ¬st.tagSCTE35 ∧ startsWithL line "#EXT-SCTE35:".data then
      st := { st with tagSCTE35 := true, listType := .MEDIA }
      let mut sc : SCTE := { Syntax := .SCTE35_67_2014 }
      for kv in decodeAndTrimAttributes (dropL 12 line) do
        if kv.1 = "CUE" then sc := { sc with Cue := kv.2 }
        else if kv.1 = "ID" then sc := { sc with ID := kv.2 }
        else if kv.1 = "TIME" then sc := { sc with Time := (parseFloatQ kv.2.data).getD 0 }
      st := { st with scte := some sc }
    else if ¬st.tagSCTE35 ∧ startsWithL line "#EXT-OATCLS-SCTE35:".data then
      st := { st with tagSCTE35 := true }
      st := { st with scte := some { Syntax := .SCTE35_OATCLS, Cue := ⟨dropL 19 line⟩ } }
    else if st.tagSCTE35 ∧ st.scte ≠ none
        ∧ (st.scte.getD {}).Syntax = .SCTE35_OATCLS
        ∧ startsWithL line "#EXT-X-CUE-OUT:".data then
      let sc := st.scte.getD {}
      let sc := { sc with Time := (parseFloatQ (dropL 15 line)).getD 0,
                          CueType := SCTE35CueType.SCTE35Cue_Start }
      st := { st with scte := some sc }
    else if ¬st.tagSCTE35 ∧ startsWithL line "#EXT-X-CUE-OUT-CONT:".data then
      st := { st with tagSCTE35 := true }
      let mut sc : SCTE := { Syntax := .SCTE35_OATCLS, CueType := .SCTE35Cue_Mid }
      for kv in decodeAndTrimAttributes (dropL 20 line) do
        if kv.1 = "SCTE35" then sc := { sc with Cue := kv.2 }
        else if kv.1 = "Duration" then sc := { sc with Time := (parseFloatQ kv.2.data).getD 0 }
        else if kv.1 = "ElapsedTime" then
          sc := { sc with Elapsed := (parseFloatQ kv.2.data).getD 0 }
      st := { st with scte := some sc }
    else if ¬st.tagSCTE35 ∧ startsWithL line "#EXT-X-CUE-OUT".data then
      st := { st with tagSCTE35 := true }
      let sc : SCTE := { Syntax := .SCTE35_OATCLS, CueType := .SCTE35Cue_Start }
      let sc := if line.length > 14 then
          { sc with Time := (parseFloatQ (dropL 15 line)).getD 0 }
        else sc
      st := { st with scte := some sc }
    else if ¬st.tagSCTE35 ∧ line = "#EXT-X-CUE-IN".data then
      st := { st with tagSCTE35 := true }
      st := { st with scte := some { Syntax := .SCTE35_OATCLS, CueType := .SCTE35Cue_End } }
    else if startsWithL line "#EXT-X-DATERANGE:".data then
      match parseDateRange line with
      | .error e => throw (p, st, some e)
      | .ok dr =>
        let isSCTE35 := dr.SCTE35Cmd ≠ "" ∨ dr.SCTE35Out ≠ "" ∨ dr.SCTE35In ≠ ""
        if isSCTE35 then
          st := { st with tagSCTE35 := true, scte35DateRanges := st.scte35DateRanges ++ [dr] }
        else
          p := { p with DateRanges := p.DateRanges ++ [dr] }
    else if ¬st.tagDiscontinuity ∧ startsWithL line "#EXT-X-DISCONTINUITY".data then
      st := { st with tagDiscontinuity := true, listType := .MEDIA }
    else if startsWithL line "#EXT-X-I-FRAMES-ONLY".data then
      st := { st with listType := .MEDIA }
      p := { p with Iframe := true }
    else if startsWithL line "#EXT-X-ALLOW-CACHE:".data then
      let val := (⟨dropL 19 line⟩ : String) = "YES"
      p := { p with AllowCache := some val }
    pure (p, st, err)

/-- Model of the per-variant body of `attachRenditionsToVariants`:
distribute decoded alternatives to a non-iframe variant whose group ids
match (the Go nil-pointer guard has no counterpart, the modelled list holds
no nil elements). -/
def attachOneVariant (alternatives : List Alternative) (variant : Variant) : Variant :=
  if variant.params.Iframe then variant
  else
    alternatives.foldl
      (fun v alt =>
        let add := fun (v : Variant) (alt : Alternative) =>
          { v with params.Alternatives := v.params.Alternatives ++ [alt] }
        let v := if v.params.Video ≠ "" ∧ alt.type = "VIDEO"
            ∧ v.params.Video = alt.GroupId then add v alt else v
        let v := if v.params.Audio ≠ "" ∧ alt.type = "AUDIO"
            ∧ v.params.Audio = alt.GroupId then add v alt else v
        let v := if v.params.Captions ≠ "" ∧ alt.type = "CLOSED-CAPTIONS"
            ∧ v.params.Captions = alt.GroupId then add v alt else v
        let v := if v.params.Subtitles ≠ "" ∧ alt.type = "SUBTITLES"
            ∧ v.params.Subtitles = alt.GroupId then add v alt else v
        v)
      variant

/-- Rendition distribution applied to every variant of the playlist. -/
def attachRenditionsToVariants (p : MasterPlaylist) (alternatives : List Alternative) :
    MasterPlaylist :=
  { p with Variants := p.Variants.map (attachOneVariant alternatives) }

/-- Model of `NewMasterPlaylist`. -/
def newMasterPlaylist : MasterPlaylist :=
  { ver := minVer }

/-- Result triple of the auto-detecting `decode`. -/
structure DecodeResult where
  playlist : Option Playlist
  listType : ListType
  err : Option Err
  deriving DecidableEq, Repr

/-- Outcome of the line loop of `decode`: an early strict-mode return or
the final parsers and state. -/
inductive LoopOutcome where
  | early (r : DecodeResult)
  | done (master : MasterPlaylist) (media : MediaPlaylist) (state : decodingState)

/-- The line loop of `decode`: feed every non-blank trimmed line first to
the master parser (until the state says MEDIA) and then to the media parser
(until it says MASTER); in strict mode the first error returns the
corresponding playlist. -/
def decodeLoop (strict : Bool) :
    List (List Char) → MasterPlaylist → MediaPlaylist → decodingState → Option LoopOutcome
  | [], master, media, state => some (.done master media state)
  | chunk :: rest, master, media, state =>
    let line := trimLineEnd chunk
    if line = [] then decodeLoop strict rest master media state
    else
      match (if state.listType ≠ .MEDIA then decodeLineOfMasterPlaylist master state line strict
             else some (master, state, none)) with
      | none => none
      | some (master, state, errM) =>
        if strict ∧ errM ≠ none then
          some (.early ⟨some (.master master), state.listType, errM⟩)
        else
          match (if state.listType ≠ .MASTER then
                   decodeLineOfMediaPlaylist media state line strict
                 else some (media, state, none)) with
          | none => none
          | some (media, state, errE) =>
            if strict ∧ errE ≠ none then
              some (.early ⟨some (.media media), state.listType, errE⟩)
            else decodeLoop strict rest master media state

/-- Model of the package-level auto-detecting `decode` (with nil custom
decoders): fresh master and media parsers (the media ring starts with
window 8 and capacity 1024 and auto-extends), the line loop, the strict
`#EXTM3U` check, and the final dispatch — master playlists get their
renditions attached; media playlists that are closed or of EVENT type get
window size 0; dangling SCTE-35 date-ranges fail; an undetected type
fails. -/
def decode (input : String) (strict : Bool) : Option DecodeResult :=
  let state : decodingState := {}
  let master := newMasterPlaylist
  match newMediaPlaylist 8 1024 with
  | .error _ => some ⟨none, .undetected, some (.parseFailure "create media playlist failed")⟩
  | .ok media =>
    match decodeLoop strict (readChunks [] input.data) master media state with
    | none => none
    | some (.early r) => some r
    | some (.done master media state) =>
      if strict ∧ ¬state.m3u then some ⟨none, .undetected, some .extM3UAbsent⟩
      else
        match state.listType with
        | .MASTER =>
          some ⟨some (.master (attachRenditionsToVariants master state.alternatives)),
            .MASTER, none⟩
        | .MEDIA =>
          let media := if media.Closed ∨ media.MediaType = .EVENT then
              match setWinSize media 0 with
              | .ok m => m
              | .error _ => media
            else media
          if state.scte35DateRanges.length > 0 then
            some ⟨none, .MEDIA, some .danglingSCTE35DateRange⟩
          else some ⟨some (.media media), .MEDIA, none⟩
        | .undetected => some ⟨none, state.listType, some .cannotDetectPlaylistType⟩

/-! ### Version calculator (`calcversion.go`) -/

/-- Model of `updateMin`: monotone update of the version/reason pair. -/
def updateMin (vr : Nat × String) (newVer : Nat) (newReason : String) : Nat × String :=
  if newVer ≤ vr.1 then vr else (newVer, newReason)

/-- Reason text of the v7 rule. -/
def reasonService : String :=
  "SERVICE value for the INSTREAM-ID attribute of the EXT-X-MEDIA"

/-- Reason text of the v11 rule. -/
def reasonQueryParam : String :=
  "EXT-X-DEFINE tag with a QUERYPARAM attribute"

/-- Reason text of the v12 rule. -/
def reasonReq : String :=
  "REQ- attribute"

/-- Reason text of the v13 rule. -/
def reasonInstreamNonCC : String :=
  "EXT-X-MEDIA tag with INSTREAM-ID attribute for non CLOSED-CAPTIONS TYPE"

/-- Initial reason of `CalcMinVersion`. -/
def reasonMinimal : String :=
  "minimal version supported by this library"

/-- The v7 pass of `MasterPlaylist.CalcMinVersion`: a variant with some
alternative whose INSTREAM-ID starts with `SERVICE` fires once (the Go
`break` leaves the inner loop after the first hit; `updateMin` is
idempotent across variants). -/
def calcMinV7 (variants : List Variant) (vr : Nat × String) : Nat × String :=
  variants.foldl
    (fun vr variant =>
      if variant.params.Alternatives.any
          (fun alt => startsWithL alt.InstreamId.data "SERVICE".data) then
        updateMin vr 7 reasonService
      else vr)
    vr

/-- The v11 pass: any QUERYPARAM define. -/
def calcMinV11 (defines : List Define) (vr : Nat × String) : Nat × String :=
  defines.foldl
    (fun vr d => if d.type = .QUERYPARAM then updateMin vr 11 reasonQueryParam else vr)
    vr

/-- The v12 pass: any variant with a REQ-VIDEO-LAYOUT attribute. -/
def calcMinV12 (variants : List Variant) (vr : Nat × String) : Nat × String :=
  variants.foldl
    (fun vr variant =>
      if variant.params.ReqVideoLayout ≠ "" then updateMin vr 12 reasonReq else vr)
    vr

/-- The v13 pass: a variant with some alternative carrying an INSTREAM-ID
for a non-CLOSED-CAPTIONS type (with the same `break` shape as the v7
pass). -/
def calcMinV13 (variants : List Variant) (vr : Nat × String) : Nat × String :=
  variants.foldl
    (fun vr variant =>
      if variant.params.Alternatives.any
          (fun alt => alt.type ≠ "CLOSED-CAPTIONS" ∧ alt.InstreamId ≠ "") then
        updateMin vr 13 reasonInstreamNonCC
      else vr)
    vr

/-- Model of `MasterPlaylist.CalcMinVersion`: starting at `minVer`, apply
the v7, v11, v12 and v13 rules in source order. -/
def CalcMinVersion (p : MasterPlaylist) : Nat × String :=
  let vr := (minVer, reasonMinimal)
  let vr := calcMinV7 p.Variants vr
  let vr := calcMinV11 p.Defines vr
  let vr := calcMinV12 p.Variants vr
  let vr := calcMinV13 p.Variants vr
  vr

/-! ### Operation traces and reachable media playlists -/

/-- Mutating operations of the public media-playlist API considered by the
claims. -/
inductive Op where
  | append (uri : String) (duration : ℚ) (title : String)
  | appendSeg (seg : MediaSegment)
  | remove
  | slide (uri : String) (duration : ℚ) (title : String)
  | close
  | setTargetDur (duration : Nat)
  | setWinSz (winsize : Nat)
  | setVer (ver : Nat)
  | resetC
  | encodeOp
  deriving Repr

/-- One operation applied to a playlist.  A Go error return leaves the
state as the method left it (unchanged for the ring operations, which fail
before mutating); `none` is a runtime panic. -/
def applyOp (p : MediaPlaylist) : Op → Option MediaPlaylist
  | .append uri d title => (append p uri d title).map (·.1)
  | .appendSeg seg => (appendSegment p seg).map (·.1)
  | .remove => (remove p).map (·.1)
  | .slide uri d title => slide p uri d title
  | .close => some (close p)
  | .setTargetDur d => some (setTargetDuration p d)
  | .setWinSz w =>
    match setWinSize p w with
    | .ok p' => some p'
    | .error _ => some p
  | .setVer v => some (setVersion p v)
  | .resetC => some (resetCache p)
  | .encodeOp => (encode p).map (·.1)

/-- A trace of operations applied in order. -/
def applyOps (p : MediaPlaylist) : List Op → Option MediaPlaylist
  | [] => some p
  | op :: rest =>
    match applyOp p op with
    | none => none
    | some p' => applyOps p' rest

/-- A media playlist is reachable when some operation trace produces it
from a freshly constructed playlist. -/
def Reachable (p : MediaPlaylist) : Prop :=
  ∃ w c ops p0, newMediaPlaylist w c = .ok p0 ∧ applyOps p0 ops = some p

/-! ### Ring-buffer invariants of reachable media playlists -/

/-- The live segment at window offset `i` (offset from `head`, modulo the
capacity), when the slot exists and is non-nil. -/
def liveSeg (p : MediaPlaylist) (i : Nat) : Option MediaSegment :=
  match p.Segments[(p.head + i) % p.capacity]? with
  | some (some s) => some s
  | _ => none

/-- Cancellation of addition under a common modulus for small operands. -/
theorem mod_add_cancel_left {n a b c : Nat} (hb : b < n) (hc : c < n)
    (h : (a + b) % n = (a + c) % n) : b = c := by
  have h2 : a + b ≡ a + c [MOD n] := h
  have h3 : b ≡ c [MOD n] := Nat.ModEq.add_left_cancel' a h2
  have h4 : b % n = c % n := h3
  rwa [Nat.mod_eq_of_lt hb, Nat.mod_eq_of_lt hc] at h4

/-- The Go expression `(capacity + tail - 1) % capacity` is the ring
position of the last live segment. -/
theorem prev_index {cap head count tail : Nat} (hcap : 0 < cap) (hcount : 0 < count)
    (ht : tail = (head + count) % cap) :
    (cap + tail - 1) % cap = (head + (count - 1)) % cap := by
  subst ht
  have h1 : cap + (head + count) % cap - 1 = (head + count) % cap + (cap - 1) := by omega
  rw [h1, Nat.mod_add_mod]
  have h2 : head + count + (cap - 1) = head + (count - 1) + cap := by omega
  rw [h2, Nat.add_mod_right]

/-- Structural invariant of the segment ring, maintained by every public
operation. -/
structure Inv (p : MediaPlaylist) : Prop where
  size_eq : p.Segments.length = p.capacity
  count_le : p.count ≤ p.capacity
  head_lt : 0 < p.capacity → p.head < p.capacity
  tail_eq : 0 < p.capacity → p.tail = (p.head + p.count) % p.capacity
  seqs : ∃ base, ∀ i, i < p.count → ∃ s, liveSeg p i = some s ∧ s.SeqId = base + i

/-- A fresh playlist satisfies the invariant. -/
theorem inv_newMediaPlaylist {w c : Nat} {p : MediaPlaylist}
    (h : newMediaPlaylist w c = .ok p) : Inv p := by
  unfold newMediaPlaylist setWinSize at h
  dsimp only at h
  by_cases hw : w > c
  · rw [if_pos hw] at h
    exact absurd h (by simp)
  · rw [if_neg hw] at h
    simp only [Except.ok.injEq] at h
    subst h
    refine ⟨by simp, by simp, by simp, ?_, ⟨0, ?_⟩⟩
    · intro _
      simp [Nat.zero_mod]
    · intro i hi
      simp at hi

/-- `Remove` preserves the invariant. -/
theorem inv_remove {p q : MediaPlaylist} {e : Option Err}
    (hInv : Inv p) (h : remove p = some (q, e)) : Inv q := by
  unfold remove at h
  split at h
  · simp only [Option.some.injEq, Prod.mk.injEq] at h
    obtain ⟨h1, _⟩ := h
    subst h1
    exact hInv
  · split at h
    · exact absurd h (by simp)
    · rename_i hcnt hcap0
      have hcap : 0 < p.capacity := Nat.pos_of_ne_zero hcap0
      have hcount : 0 < p.count := Nat.pos_of_ne_zero hcnt
      simp only [Option.some.injEq, Prod.mk.injEq] at h
      obtain ⟨h1, _⟩ := h
      subst h1
      obtain ⟨base, hbase⟩ := hInv.seqs
      refine ⟨hInv.size_eq, ?_, ?_, ?_, ⟨base + 1, ?_⟩⟩
      · show p.count - 1 ≤ p.capacity
        have := hInv.count_le
        omega
      · intro _
        show (p.head + 1) % p.capacity < p.capacity
        exact Nat.mod_lt _ hcap
      · intro _
        show p.tail = ((p.head + 1) % p.capacity + (p.count - 1)) % p.capacity
        rw [Nat.mod_add_mod, hInv.tail_eq hcap]
        congr 1
        omega
      · intro i hi
        have hi' : i < p.count - 1 := hi
        obtain ⟨s, hs, hsid⟩ := hbase (i + 1) (by omega)
        refine ⟨s, ?_, by omega⟩
        show (match p.Segments[((p.head + 1) % p.capacity + i) % p.capacity]? with
          | some (some s) => some s
          | _ => none) = some s
        rw [Nat.mod_add_mod]
        have harg : p.head + 1 + i = p.head + (i + 1) := by omega
        rw [harg]
        exact hs

/-- On a reachable-state ring, `count < capacity` means the fullness test
fails. -/
theorem not_full_of_lt {p : MediaPlaylist} (hInv : Inv p) (hcap : 0 < p.capacity)
    (hlt : p.count < p.capacity) : ¬(p.head = p.tail ∧ p.count > 0) := by
  rintro ⟨hht, hcnt⟩
  have ht := hInv.tail_eq hcap
  have hh := hInv.head_lt hcap
  have hx : (p.head + 0) % p.capacity = (p.head + p.count) % p.capacity := by
    rw [Nat.add_zero, ← ht, hht]
    exact Nat.mod_eq_of_lt (hht ▸ hh)
  have := mod_add_cancel_left (by omega) hlt hx
  omega

/-- On a reachable-state ring with positive capacity, `count = capacity`
makes the fullness test succeed. -/
theorem full_of_eq {p : MediaPlaylist} (hInv : Inv p) (hcap : 0 < p.capacity)
    (heq : p.count = p.capacity) : p.head = p.tail ∧ p.count > 0 := by
  have ht := hInv.tail_eq hcap
  have hh := hInv.head_lt hcap
  refine ⟨?_, by omega⟩
  have hx : (p.head + p.capacity) % p.capacity = p.head := by
    rw [Nat.add_mod_right]
    exact Nat.mod_eq_of_lt hh
  rw [ht, heq, hx]

/-- `AppendSegment` preserves the invariant. -/
theorem inv_appendSegment {p : MediaPlaylist} {seg : MediaSegment} {q : MediaPlaylist}
    {e : Option Err} (hInv : Inv p) (h : appendSegment p seg = some (q, e)) : Inv q := by
  unfold appendSegment at h
  by_cases hfull : p.head = p.tail ∧ p.count > 0
  · rw [if_pos hfull] at h
    simp only [Option.some.injEq, Prod.mk.injEq] at h
    obtain ⟨h1, _⟩ := h
    subst h1
    exact hInv
  · rw [if_neg hfull] at h
    dsimp only at h
    by_cases hcnt : p.count > 0
    · -- non-empty ring
      rw [if_pos hcnt] at h
      have hcap : 0 < p.capacity := by
        have := hInv.count_le
        omega
      have hcapne : ¬p.capacity = 0 := by omega
      rw [if_neg hcapne] at h
      have hcnt_lt : p.count < p.capacity := by
        rcases Nat.lt_or_ge p.count p.capacity with hlt | hge
        · exact hlt
        · exact absurd (full_of_eq hInv hcap (le_antisymm hInv.count_le hge)) hfull
      have htail : p.tail = (p.head + p.count) % p.capacity := hInv.tail_eq hcap
      have hstore : p.tail < p.Segments.length := by
        rw [hInv.size_eq, htail]
        exact Nat.mod_lt _ hcap
      obtain ⟨base, hbase⟩ := hInv.seqs
      obtain ⟨s, hs, hsid⟩ := hbase (p.count - 1) (by omega)
      have hidx : (p.capacity + p.tail - 1) % p.capacity
          = (p.head + (p.count - 1)) % p.capacity := prev_index hcap hcnt htail
      unfold liveSeg at hs
      rw [hidx] at h
      revert hs
      cases hlook : p.Segments[(p.head + (p.count - 1)) % p.capacity]? with
      | none => intro hs; exact absurd hs (by simp)
      | some segOpt =>
        cases segOpt with
        | none => intro hs; exact absurd hs (by simp)
        | some prev =>
          intro hs
          simp only [Option.some.injEq] at hs
          subst hs
          rw [hlook] at h
          dsimp only at h
          unfold goSliceStore at h
          rw [if_pos hstore] at h
          dsimp only at h
          rw [if_neg hcapne] at h
          simp only [Option.some.injEq, Prod.mk.injEq] at h
          obtain ⟨h1, _⟩ := h
          subst h1
          refine ⟨?_, ?_, ?_, ?_, ⟨base, ?_⟩⟩
          · show (p.Segments.set p.tail _).length = p.capacity
            rw [List.length_set]
            exact hInv.size_eq
          · show p.count + 1 ≤ p.capacity
            omega
          · intro _
            exact hInv.head_lt hcap
          · intro _
            show (p.tail + 1) % p.capacity = (p.head + (p.count + 1)) % p.capacity
            rw [htail, Nat.mod_add_mod, Nat.add_assoc]
          · intro i hi
            have hi' : i < p.count + 1 := hi
            by_cases hieq : i = p.count
            · subst hieq
              refine ⟨{ seg with SeqId := prev.SeqId + 1 }, ?_,
                show prev.SeqId + 1 = base + p.count by omega⟩
              show (match (p.Segments.set p.tail
                  (some { seg with SeqId := prev.SeqId + 1 }))[(p.head + p.count) % p.capacity]? with
                | some (some s) => some s
                | _ => none) = _
              rw [← htail]
              rw [List.getElem?_set_eq_of_lt _ hstore]
            · have hilt : i < p.count := by omega
              obtain ⟨s', hs', hsid'⟩ := hbase i hilt
              refine ⟨s', ?_, hsid'⟩
              show (match (p.Segments.set p.tail _)[(p.head + i) % p.capacity]? with
                | some (some s) => some s
                | _ => none) = some s'
              have hiclt : i < p.capacity := by omega
              have hne : p.tail ≠ (p.head + i) % p.capacity := by
                rw [htail]
                intro hcon
                have := mod_add_cancel_left hcnt_lt hiclt hcon
                omega
              rw [List.getElem?_set_ne hne]
              exact hs'
    · -- empty ring
      rw [if_neg hcnt] at h
      dsimp only at h
      unfold goSliceStore at h
      by_cases hcapz : p.capacity = 0
      · exfalso
        have hlen0 : p.Segments.length = 0 := by rw [hInv.size_eq, hcapz]
        have hnostore : ¬(p.tail < p.Segments.length) := by omega
        rw [if_neg hnostore] at h
        dsimp only at h
        exact absurd h (by simp)
      · have hcap : 0 < p.capacity := Nat.pos_of_ne_zero hcapz
        have hcnt0 : p.count = 0 := by omega
        have htail : p.tail = (p.head + p.count) % p.capacity := hInv.tail_eq hcap
        have hstore : p.tail < p.Segments.length := by
          rw [hInv.size_eq, htail]
          exact Nat.mod_lt _ hcap
        rw [if_pos hstore] at h
        dsimp only at h
        rw [if_neg hcapz] at h
        simp only [Option.some.injEq, Prod.mk.injEq] at h
        obtain ⟨h1, _⟩ := h
        subst h1
        refine ⟨?_, ?_, ?_, ?_, ⟨p.SeqNo, ?_⟩⟩
        · show (p.Segments.set p.tail _).length = p.capacity
          rw [List.length_set]
          exact hInv.size_eq
        · show p.count + 1 ≤ p.capacity
          omega
        · intro _
          exact hInv.head_lt hcap
        · intro _
          show (p.tail + 1) % p.capacity = (p.head + (p.count + 1)) % p.capacity
          rw [htail, Nat.mod_add_mod, Nat.add_assoc]
        · intro i hi
          have hi' : i < p.count + 1 := hi
          have hieq : i = 0 := by omega
          subst hieq
          refine ⟨{ seg with SeqId := p.SeqNo }, ?_,
            show p.SeqNo = p.SeqNo + 0 by omega⟩
          show (match (p.Segments.set p.tail
              (some { seg with SeqId := p.SeqNo }))[(p.head + 0) % p.capacity]? with
            | some (some s) => some s
            | _ => none) = _
          have hpos : (p.head + 0) % p.capacity = p.tail := by
            rw [htail, hcnt0]
          rw [hpos]
          rw [List.getElem?_set_eq_of_lt _ hstore]

/-- `Append` preserves the invariant. -/
theorem inv_append {p q : MediaPlaylist} {uri : String} {d : ℚ} {t : String} {e : Option Err}
    (hInv : Inv p) (h : append p uri d t = some (q, e)) : Inv q :=
  inv_appendSegment hInv h

/-- Operations that leave the ring fields untouched preserve the
invariant. -/
theorem inv_close {p : MediaPlaylist} (hInv : Inv p) : Inv (close p) :=
  ⟨hInv.size_eq, hInv.count_le, hInv.head_lt, hInv.tail_eq, hInv.seqs⟩

/-- `SetTargetDuration` preserves the invariant. -/
theorem inv_setTargetDuration {p : MediaPlaylist} (hInv : Inv p) (d : Nat) :
    Inv (setTargetDuration p d) :=
  ⟨hInv.size_eq, hInv.count_le, hInv.head_lt, hInv.tail_eq, hInv.seqs⟩

/-- `SetVersion` preserves the invariant. -/
theorem inv_setVersion {p : MediaPlaylist} (hInv : Inv p) (v : Nat) :
    Inv (setVersion p v) :=
  ⟨hInv.size_eq, hInv.count_le, hInv.head_lt, hInv.tail_eq, hInv.seqs⟩

/-- `ResetCache` preserves the invariant. -/
theorem inv_resetCache {p : MediaPlaylist} (hInv : Inv p) : Inv (resetCache p) :=
  ⟨hInv.size_eq, hInv.count_le, hInv.head_lt, hInv.tail_eq, hInv.seqs⟩

/-- `SetWinSize` preserves the invariant. -/
theorem inv_setWinSize {p q : MediaPlaylist} {w : Nat} (hInv : Inv p)
    (h : setWinSize p w = .ok q) : Inv q := by
  unfold setWinSize at h
  split at h
  · exact absurd h (by simp)
  · simp only [Except.ok.injEq] at h
    subst h
    exact ⟨hInv.size_eq, hInv.count_le, hInv.head_lt, hInv.tail_eq, hInv.seqs⟩

/-- `Encode` preserves the invariant (it touches only the cache). -/
theorem inv_encode {p q : MediaPlaylist} {out : String} (hInv : Inv p)
    (h : encode p = some (q, out)) : Inv q := by
  unfold encode at h
  split at h
  · simp only [Option.some.injEq, Prod.mk.injEq] at h
    obtain ⟨h1, _⟩ := h
    subst h1
    exact hInv
  · split at h
    · exact absurd h (by simp)
    · simp only [Option.some.injEq, Prod.mk.injEq] at h
      obtain ⟨h1, _⟩ := h
      subst h1
      exact ⟨hInv.size_eq, hInv.count_le, hInv.head_lt, hInv.tail_eq, hInv.seqs⟩

/-- `Slide` preserves the invariant. -/
theorem inv_slide {p q : MediaPlaylist} {uri : String} {d : ℚ} {t : String}
    (hInv : Inv p) (h : slide p uri d t = some q) : Inv q := by
  unfold slide at h
  by_cases hc : ¬p.Closed = true ∧ p.count ≥ p.winsize
  · rw [if_pos hc] at h
    cases hr : remove p with
    | none => rw [hr] at h; exact absurd h (by simp)
    | some pair =>
      obtain ⟨p1, e1⟩ := pair
      rw [hr] at h
      dsimp only at h
      cases ha : append p1 uri d t with
      | none => rw [ha] at h; exact absurd h (by simp)
      | some pair2 =>
        obtain ⟨p2, e2⟩ := pair2
        rw [ha] at h
        dsimp only at h
        simp only [Option.some.injEq] at h
        subst h
        exact inv_append (inv_remove hInv hr) ha
  · rw [if_neg hc] at h
    dsimp only at h
    cases ha : append p uri d t with
    | none => rw [ha] at h; exact absurd h (by simp)
    | some pair2 =>
      obtain ⟨p2, e2⟩ := pair2
      rw [ha] at h
      dsimp only at h
      simp only [Option.some.injEq] at h
      subst h
      exact inv_append hInv ha

/-- Every operation of the trace language preserves the invariant. -/
theorem inv_applyOp {p q : MediaPlaylist} {op : Op} (hInv : Inv p)
    (h : applyOp p op = some q) : Inv q := by
  cases op with
  | append uri d t =>
    simp only [applyOp] at h
    cases hx : append p uri d t with
    | none => rw [hx] at h; exact absurd h (by simp)
    | some pair =>
      rw [hx] at h
      simp only [Option.map_some', Option.some.injEq] at h
      subst h
      exact inv_append hInv hx
  | appendSeg seg =>
    simp only [applyOp] at h
    cases hx : appendSegment p seg with
    | none => rw [hx] at h; exact absurd h (by simp)
    | some pair =>
      rw [hx] at h
      simp only [Option.map_some', Option.some.injEq] at h
      subst h
      exact inv_appendSegment hInv hx
  | remove =>
    simp only [applyOp] at h
    cases hx : remove p with
    | none => rw [hx] at h; exact absurd h (by simp)
    | some pair =>
      rw [hx] at h
      simp only [Option.map_some', Option.some.injEq] at h
      subst h
      exact inv_remove hInv hx
  | slide uri d t =>
    simp only [applyOp] at h
    exact inv_slide hInv h
  | close =>
    simp only [applyOp] at h
    simp only [Option.some.injEq] at h
    subst h
    exact inv_close hInv
  | setTargetDur d =>
    simp only [applyOp] at h
    simp only [Option.some.injEq] at h
    subst h
    exact inv_setTargetDuration hInv d
  | setWinSz w =>
    simp only [applyOp] at h
    split at h
    · rename_i q' hx
      simp only [Option.some.injEq] at h
      subst h
      exact inv_setWinSize hInv hx
    · simp only [Option.some.injEq] at h
      subst h
      exact hInv
  | setVer v =>
    simp only [applyOp] at h
    simp only [Option.some.injEq] at h
    subst h
    exact inv_setVersion hInv v
  | resetC =>
    simp only [applyOp] at h
    simp only [Option.some.injEq] at h
    subst h
    exact inv_resetCache hInv
  | encodeOp =>
    simp only [applyOp] at h
    cases hx : encode p with
    | none => rw [hx] at h; exact absurd h (by simp)
    | some pair =>
      rw [hx] at h
      simp only [Option.map_some', Option.some.injEq] at h
      subst h
      exact inv_encode hInv hx

/-- A whole trace preserves the invariant. -/
theorem inv_applyOps {p q : MediaPlaylist} {ops : List Op} (hInv : Inv p)
    (h : applyOps p ops = some q) : Inv q := by
  induction ops generalizing p with
  | nil =>
    unfold applyOps at h
    simp only [Option.some.injEq] at h
    subst h
    exact hInv
  | cons op rest ih =>
    unfold applyOps at h
    cases hx : applyOp p op with
    | none => rw [hx] at h; exact absurd h (by simp)
    | some p' =>
      rw [hx] at h
      exact ih (inv_applyOp hInv hx) h

/-- Every reachable media playlist satisfies the ring invariant. -/
theorem inv_reachable {p : MediaPlaylist} (h : Reachable p) : Inv p := by
  obtain ⟨w, c, ops, p0, hnew, hops⟩ := h
  exact inv_applyOps (inv_newMediaPlaylist hnew) hops

/-! ### Specification-side definitions used to state claims -/

/-- Written from the spec's words (not from the source): CRLF line endings
normalised to LF. -/
def normalizeCRLF : List Char → List Char
  | [] => []
  | '\r' :: '\n' :: rest => '\n' :: normalizeCRLF rest
  | c :: rest => c :: normalizeCRLF rest

/-- Written from the spec's words (not from the source): the maximum over
the live segments of `ceil(duration)` when the playlist version is 5 or
lower, or of `round(duration)` when it is 6 or higher. -/
def specLiveMaxTargetDuration (p : MediaPlaylist) : Nat :=
  (List.range p.count).foldl
    (fun acc i =>
      match liveSeg p i with
      | some s => max acc (if p.ver ≤ 5 then ⌈s.Duration⌉.toNat else (goRound s.Duration).toNat)
      | none => acc)
    0

/-! ### Claim C9 — YES/NO attribute handling -/

/-- Claim C9, counterexample.  The claim says every value that is neither
`YES` nor `NO` defaults to NO (false) in lax mode; the value `"yes"` is
neither, yet lax decoding yields true (`strings.ToUpper` comparison), while
strict mode rejects it with the NotYesOrNo error — so the lax half of the
claim is false at `"yes"`. -/
theorem C9_yesorno_counterexample :
    ("yes" = "YES") = False ∧ ("yes" = "NO") = False
    ∧ yesOrNo "yes" false = (true, none)
    ∧ yesOrNo "yes" true = (false, some (.notYesOrNo "yes")) := by
  refine ⟨by simp, by simp, by decide, by decide⟩

/-- Claim C9, amended: in lax mode the decoder never fails and the
attribute parses as true exactly for case-insensitive `YES` — so a value
that must be YES or NO but is neither defaults to NO unless it is a
case-variant of YES; in strict mode any value other than the literals `YES`
and `NO` fails with the NotYesOrNo error. -/
theorem C9_yesorno_amended (v : String) (hY : v ≠ "YES") (hN : v ≠ "NO") :
    yesOrNo v true = (false, some (.notYesOrNo v))
    ∧ yesOrNo v false = ((goToUpper v = "YES" : Bool), none)
    ∧ (goToUpper v ≠ "YES" → yesOrNo v false = (false, none)) := by
  refine ⟨?_, ?_, ?_⟩
  · unfold yesOrNo
    rw [if_pos rfl, if_neg hY, if_neg hN]
  · unfold yesOrNo
    rw [if_neg (by simp)]
    by_cases hu : goToUpper v = "YES"
    · rw [if_pos hu]
      simp [hu]
    · rw [if_neg hu]
      simp [hu]
  · intro hu
    unfold yesOrNo
    rw [if_neg (by simp), if_neg hu]

/-- Claim C9, witness at the value `"MAYBE"`. -/
theorem C9_yesorno_witness :
    yesOrNo "MAYBE" true = (false, some (.notYesOrNo "MAYBE"))
    ∧ yesOrNo "MAYBE" false = ((goToUpper "MAYBE" = "YES" : Bool), none)
    ∧ (goToUpper "MAYBE" ≠ "YES" → yesOrNo "MAYBE" false = (false, none)) :=
  C9_yesorno_amended "MAYBE" (by decide) (by decide)

/-! ### Claim C8 — CalcMinVersion with a SERVICE INSTREAM-ID -/

/-- The v7 pass keeps the pair `(7, reasonService)` fixed. -/
theorem calcMinV7_fixed (variants : List Variant) :
    calcMinV7 variants (7, reasonService) = (7, reasonService) := by
  induction variants with
  | nil => rfl
  | cons v rest ih =>
    unfold calcMinV7 at ih ⊢
    simp only [List.foldl_cons]
    split
    · rw [show updateMin (7, reasonService) 7 reasonService = (7, reasonService) from rfl]
      exact ih
    · exact ih

/-- The v7 pass fires on a playlist that contains a variant with a
SERVICE-prefixed INSTREAM-ID alternative. -/
theorem calcMinV7_fires (variants : List Variant)
    (hfire : ∃ v ∈ variants, ∃ a ∈ v.params.Alternatives,
      startsWithL a.InstreamId.data "SERVICE".data = true) :
    calcMinV7 variants (minVer, reasonMinimal) = (7, reasonService) := by
  induction variants with
  | nil => simp at hfire
  | cons v rest ih =>
    unfold calcMinV7
    simp only [List.foldl_cons]
    by_cases hv : v.params.Alternatives.any
        (fun alt => startsWithL alt.InstreamId.data "SERVICE".data) = true
    · rw [if_pos hv]
      rw [show updateMin (minVer, reasonMinimal) 7 reasonService = (7, reasonService) by rfl]
      exact calcMinV7_fixed rest
    · rw [if_neg hv]
      obtain ⟨w, hw, a, ha, hsvc⟩ := hfire
      rcases List.mem_cons.mp hw with hw | hw
      · exfalso
        apply hv
        rw [List.any_eq_true]
        exact ⟨a, hw ▸ ha, hsvc⟩
      · exact ih ⟨w, hw, a, ha, hsvc⟩

/-- The v11 pass is the identity without QUERYPARAM defines. -/
theorem calcMinV11_id (defines : List Define) (vr : Nat × String)
    (h : ∀ d ∈ defines, d.type ≠ .QUERYPARAM) :
    calcMinV11 defines vr = vr := by
  induction defines generalizing vr with
  | nil => rfl
  | cons d rest ih =>
    unfold calcMinV11
    simp only [List.foldl_cons]
    rw [if_neg (h d (by simp))]
    exact ih vr fun d' hd' => h d' (by simp [hd'])

/-- The v12 pass is the identity without REQ-VIDEO-LAYOUT variants. -/
theorem calcMinV12_id (variants : List Variant) (vr : Nat × String)
    (h : ∀ v ∈ variants, v.params.ReqVideoLayout = "") :
    calcMinV12 variants vr = vr := by
  induction variants generalizing vr with
  | nil => rfl
  | cons v rest ih =>
    unfold calcMinV12
    simp only [List.foldl_cons]
    rw [if_neg (by simpa using h v (by simp))]
    exact ih vr fun v' hv' => h v' (by simp [hv'])

/-- The v13 pass is the identity when every alternative with an INSTREAM-ID
is of CLOSED-CAPTIONS type. -/
theorem calcMinV13_id (variants : List Variant) (vr : Nat × String)
    (h : ∀ v ∈ variants, ∀ a ∈ v.params.Alternatives,
      a.InstreamId ≠ "" → a.type = "CLOSED-CAPTIONS") :
    calcMinV13 variants vr = vr := by
  induction variants generalizing vr with
  | nil => rfl
  | cons v rest ih =>
    unfold calcMinV13
    simp only [List.foldl_cons]
    have hno : ¬(v.params.Alternatives.any
        (fun alt => alt.type ≠ "CLOSED-CAPTIONS" ∧ alt.InstreamId ≠ "") = true) := by
      rw [List.any_eq_true]
      rintro ⟨a, ha, hcond⟩
      rw [decide_eq_true_eq] at hcond
      exact hcond.1 (h v (by simp) a ha hcond.2)
    rw [if_neg hno]
    exact ih vr fun v' hv' => h v' (by simp [hv'])

/-- Claim C8: a master playlist containing a variant with an alternative
whose INSTREAM-ID is `SERVICE1` and no other version-raising feature — no
QUERYPARAM define (v11), no REQ-VIDEO-LAYOUT (v12), and every alternative
with an INSTREAM-ID of CLOSED-CAPTIONS type (v13) — gets minimum version 7
with the SERVICE reason. -/
theorem C8_calcminversion (p : MasterPlaylist)
    (h7 : ∃ v ∈ p.Variants, ∃ a ∈ v.params.Alternatives, a.InstreamId = "SERVICE1")
    (h11 : ∀ d ∈ p.Defines, d.type ≠ .QUERYPARAM)
    (h12 : ∀ v ∈ p.Variants, v.params.ReqVideoLayout = "")
    (h13 : ∀ v ∈ p.Variants, ∀ a ∈ v.params.Alternatives,
      a.InstreamId ≠ "" → a.type = "CLOSED-CAPTIONS") :
    CalcMinVersion p = (7, "SERVICE value for the INSTREAM-ID attribute of the EXT-X-MEDIA") := by
  have h7' : ∃ v ∈ p.Variants, ∃ a ∈ v.params.Alternatives,
      startsWithL a.InstreamId.data "SERVICE".data = true := by
    obtain ⟨v, hv, a, ha, hid⟩ := h7
    exact ⟨v, hv, a, ha, by rw [hid]; decide⟩
  show calcMinV13 p.Variants (calcMinV12 p.Variants (calcMinV11 p.Defines
      (calcMinV7 p.Variants (minVer, reasonMinimal)))) = _
  rw [calcMinV7_fires p.Variants h7', calcMinV11_id p.Defines _ h11,
    calcMinV12_id p.Variants _ h12, calcMinV13_id p.Variants _ h13]
  rfl

/-- Alternative for the C8 witness: CLOSED-CAPTIONS with INSTREAM-ID
`SERVICE1`. -/
def c8Alt : Alternative :=
  { type := "CLOSED-CAPTIONS", InstreamId := "SERVICE1" }

/-- The single variant of the C8 witness playlist. -/
def c8Variant : Variant :=
  { URI := "v.m3u8", params := { Alternatives := [c8Alt] } }

def c8Playlist : MasterPlaylist :=
  { newMasterPlaylist with Variants := [c8Variant] }

/-- Claim C8, witness on the concrete playlist. -/
theorem C8_calcminversion_witness :
    CalcMinVersion c8Playlist
      = (7, "SERVICE value for the INSTREAM-ID attribute of the EXT-X-MEDIA") :=
  C8_calcminversion c8Playlist (by decide) (by decide) (by decide) (by decide)

/-! ### Claim C3 — consecutive sequence ids -/

/-- Claim C3: on every media playlist reachable from the constructor by the
public mutators, the live segments carry strictly consecutive sequence ids:
the segment at window offset `i + 1` has `SeqId` one above the segment at
offset `i`. -/
theorem C3_seqid_consecutive (p : MediaPlaylist) (h : Reachable p)
    (i : Nat) (hi : i + 1 < p.count) :
    ∃ s t, liveSeg p i = some s ∧ liveSeg p (i + 1) = some t
      ∧ t.SeqId = s.SeqId + 1 := by
  obtain ⟨base, hb⟩ := (inv_reachable h).seqs
  obtain ⟨s, hs, hsid⟩ := hb i (by omega)
  obtain ⟨t, ht, htid⟩ := hb (i + 1) hi
  exact ⟨s, t, hs, ht, by omega⟩

/-- Start state of the C3 witness: a fresh playlist of capacity 3. -/
def c3p0 : MediaPlaylist := (newMediaPlaylist 0 3).toOption.getD default

/-- Witness trace for C3: three appends then one removal. -/
def c3Ops : List Op := [Op.append "a.ts" 5 "", Op.append "b.ts" 5 "", Op.append "c.ts" 5 "", Op.remove]

/-- The C3 witness playlist (two live segments with sequence ids 1, 2). -/
def c3p : MediaPlaylist := (applyOps c3p0 c3Ops).getD c3p0

/-- Claim C3, witness at a concrete reachable playlist. -/
theorem C3_seqid_consecutive_witness :
    ∃ s t, liveSeg c3p 0 = some s ∧ liveSeg c3p 1 = some t
      ∧ t.SeqId = s.SeqId + 1 :=
  C3_seqid_consecutive c3p ⟨0, 3, c3Ops, c3p0, rfl, by decide⟩ 0 (by decide)

/-! ### Claim C5 — appending to a full ring -/

/-- On a ring satisfying the invariant with `count < capacity`,
`AppendSegment` succeeds: no error, no panic, `count` grows by one and the
capacity is untouched. -/
theorem appendSegment_succeeds {p : MediaPlaylist} (seg : MediaSegment)
    (hInv : Inv p) (hcap : 0 < p.capacity) (hlt : p.count < p.capacity) :
    ∃ q, appendSegment p seg = some (q, none) ∧ q.count = p.count + 1
      ∧ q.capacity = p.capacity := by
  have hfull := not_full_of_lt hInv hcap hlt
  have hcapne : ¬p.capacity = 0 := by omega
  have htail : p.tail = (p.head + p.count) % p.capacity := hInv.tail_eq hcap
  have hstore : p.tail < p.Segments.length := by
    rw [hInv.size_eq, htail]
    exact Nat.mod_lt _ hcap
  unfold appendSegment
  rw [if_neg hfull]
  dsimp only
  by_cases hcnt : p.count > 0
  · rw [if_pos hcnt, if_neg hcapne]
    obtain ⟨base, hbase⟩ := hInv.seqs
    obtain ⟨s, hs, hsid⟩ := hbase (p.count - 1) (by omega)
    have hidx : (p.capacity + p.tail - 1) % p.capacity
        = (p.head + (p.count - 1)) % p.capacity := prev_index hcap hcnt htail
    rw [hidx]
    unfold liveSeg at hs
    revert hs
    cases hlook : p.Segments[(p.head + (p.count - 1)) % p.capacity]? with
    | none => intro hs; exact absurd hs (by simp)
    | some segOpt =>
      cases segOpt with
      | none => intro hs; exact absurd hs (by simp)
      | some prev =>
        intro _
        dsimp only
        unfold goSliceStore
        rw [if_pos hstore]
        dsimp only
        rw [if_neg hcapne]
        exact ⟨_, rfl, rfl, rfl⟩
  · rw [if_neg hcnt]
    dsimp only
    unfold goSliceStore
    rw [if_pos hstore]
    dsimp only
    rw [if_neg hcapne]
    exact ⟨_, rfl, rfl, rfl⟩

/-- A zero-capacity playlist: the constructor accepts `winsize = 0`,
`capacity = 0`. -/
def cap0p : MediaPlaylist := (newMediaPlaylist 0 0).toOption.getD default

/-- Claim C5, counterexample.  The zero-capacity playlist has
`count = capacity`, yet `Append` does not return `ErrPlaylistFull`: it
panics (out-of-range store into the empty backing slice), modelled as
`none`. -/
theorem C5_full_counterexample :
    newMediaPlaylist 0 0 = Except.ok cap0p
    ∧ cap0p.count = cap0p.capacity
    ∧ append cap0p "x.ts" 5 "" = none :=
  ⟨rfl, rfl, rfl⟩

/-- Claim C5, amended: on a reachable playlist with positive capacity,
`AppendSegment` returns `ErrPlaylistFull` and leaves the state unchanged
when `count = capacity`, and succeeds (no error, count grows) when
`count < capacity`. -/
theorem C5_full_amended (p : MediaPlaylist) (seg : MediaSegment)
    (h : Reachable p) (hcap : 0 < p.capacity) :
    (p.count = p.capacity → appendSegment p seg = some (p, some Err.playlistFull))
    ∧ (p.count < p.capacity →
        ∃ q, appendSegment p seg = some (q, none) ∧ q.count = p.count + 1) := by
  have hInv := inv_reachable h
  constructor
  · intro heq
    unfold appendSegment
    rw [if_pos (full_of_eq hInv hcap heq)]
  · intro hlt
    obtain ⟨q, hq, hc, _⟩ := appendSegment_succeeds seg hInv hcap hlt
    exact ⟨q, hq, hc⟩

/-- Start state of the C5 and C10 witnesses: a fresh playlist of
capacity 1. -/
def c5p0 : MediaPlaylist := (newMediaPlaylist 0 1).toOption.getD default

/-- Witness trace for C5: one append filling the capacity-1 ring. -/
def c5Ops : List Op := [Op.append "a.ts" 5 ""]

/-- The C5 witness playlist: full ring (`count = capacity = 1`). -/
def c5p : MediaPlaylist := (applyOps c5p0 c5Ops).getD c5p0

/-- The segment appended in the C5 witness. -/
def c5seg : MediaSegment := { URI := "b.ts", Duration := 5 }

/-- Claim C5, witness at a concrete full playlist of capacity 1. -/
theorem C5_full_witness :
    (c5p.count = c5p.capacity → appendSegment c5p c5seg = some (c5p, some Err.playlistFull))
    ∧ (c5p.count < c5p.capacity →
        ∃ q, appendSegment c5p c5seg = some (q, none) ∧ q.count = c5p.count + 1) :=
  C5_full_amended c5p c5seg ⟨0, 1, c5Ops, c5p0, rfl, by decide⟩ (by decide)

/-! ### Claim C10 — Slide -/

/-- Claim C10, counterexample.  `Slide` can fail: on the zero-capacity
playlist it panics (the internal `Append` stores out of range), modelled as
`none` — it does not return the playlist unchanged. -/
theorem C10_slide_counterexample :
    newMediaPlaylist 0 0 = Except.ok cap0p
    ∧ slide cap0p "x.ts" 5 "" = none :=
  ⟨rfl, rfl⟩

/-- Claim C10, amended: on a reachable playlist with positive capacity,
`Slide` never fails (it always returns a playlist, reporting no error), and
when the playlist is closed with a full ring no segment is removed, the
internal `Append` fails, and the new segment is silently dropped: the
playlist is returned unchanged. -/
theorem C10_slide_amended (p : MediaPlaylist) (uri : String) (d : ℚ) (title : String)
    (h : Reachable p) (hcap : 0 < p.capacity) :
    (∃ q, slide p uri d title = some q)
    ∧ (p.Closed = true → p.count = p.capacity → slide p uri d title = some p) := by
  have hInv := inv_reachable h
  constructor
  · unfold slide
    by_cases hcond : ¬p.Closed = true ∧ p.count ≥ p.winsize
    · rw [if_pos hcond]
      by_cases hcnt0 : p.count = 0
      · unfold remove
        rw [if_pos hcnt0]
        dsimp only
        unfold append
        obtain ⟨q, hq, _, _⟩ := appendSegment_succeeds
          { URI := uri, Duration := d, Title := title } hInv hcap (by omega)
        rw [hq]
        exact ⟨q, rfl⟩
      · have hrem : remove p = some ({ p with
            head := (p.head + 1) % p.capacity
            count := p.count - 1
            SeqNo := if ¬p.Closed then p.SeqNo + 1 else p.SeqNo
            buf := "" }, none) := by
          unfold remove
          rw [if_neg hcnt0, if_neg (by omega)]
        rw [hrem]
        dsimp only
        unfold append
        have hInv1 := inv_remove hInv hrem
        obtain ⟨q, hq, _, _⟩ := appendSegment_succeeds
          { URI := uri, Duration := d, Title := title } hInv1 hcap
          (show p.count - 1 < p.capacity by have := hInv.count_le; omega)
        rw [hq]
        exact ⟨q, rfl⟩
    · rw [if_neg hcond]
      dsimp only
      unfold append
      by_cases heq : p.count = p.capacity
      · have happ : appendSegment p { URI := uri, Duration := d, Title := title }
            = some (p, some Err.playlistFull) := by
          unfold appendSegment
          rw [if_pos (full_of_eq hInv hcap heq)]
        rw [happ]
        exact ⟨p, rfl⟩
      · obtain ⟨q, hq, _, _⟩ := appendSegment_succeeds
          { URI := uri, Duration := d, Title := title } hInv hcap
          (by have := hInv.count_le; omega)
        rw [hq]
        exact ⟨q, rfl⟩
  · intro hClosed heq
    unfold slide
    rw [if_neg (by rw [hClosed]; simp)]
    dsimp only
    unfold append
    have happ : appendSegment p { URI := uri, Duration := d, Title := title }
        = some (p, some Err.playlistFull) := by
      unfold appendSegment
      rw [if_pos (full_of_eq hInv hcap heq)]
    rw [happ]

/-- The C10 witness playlist: full ring of capacity 1, closed. -/
def c10p : MediaPlaylist := (applyOps c5p0 [Op.append "a.ts" 5 "", Op.close]).getD c5p0

/-- Claim C10, witness at a concrete closed, full playlist. -/
theorem C10_slide_witness :
    (∃ q, slide c10p "b.ts" 5 "" = some q)
    ∧ (c10p.Closed = true → c10p.count = c10p.capacity → slide c10p "b.ts" 5 "" = some c10p) :=
  C10_slide_amended c10p "b.ts" 5 ""
    ⟨0, 1, [Op.append "a.ts" 5 "", Op.close], c5p0, rfl, by decide⟩ (by decide)

/-! ### Claim C4 — TargetDuration -/

/-- Field bookkeeping of `AppendSegment`: either the full-ring error (state
unchanged) or success with the cache cleared, the lock, version untouched,
and the target duration updated only while unlocked. -/
theorem appendSegment_fields {p : MediaPlaylist} {seg : MediaSegment} {q : MediaPlaylist}
    {e : Option Err} (h : appendSegment p seg = some (q, e)) :
    (q = p ∧ e = some Err.playlistFull)
    ∨ (e = none ∧ q.targetDurLocked = p.targetDurLocked ∧ q.ver = p.ver ∧ q.buf = ""
        ∧ q.TargetDuration =
            (if ¬p.targetDurLocked then
              calcNewTargetDuration seg.Duration p.ver p.TargetDuration
            else p.TargetDuration)) := by
  unfold appendSegment at h
  by_cases hfull : p.head = p.tail ∧ p.count > 0
  · rw [if_pos hfull] at h
    simp only [Option.some.injEq, Prod.mk.injEq] at h
    exact Or.inl ⟨h.1.symm, h.2.symm⟩
  · rw [if_neg hfull] at h
    dsimp only at h
    split at h
    · exact absurd h (by simp)
    · split at h
      · exact absurd h (by simp)
      · split at h
        · exact absurd h (by simp)
        · simp only [Option.some.injEq, Prod.mk.injEq] at h
          obtain ⟨h1, h2⟩ := h
          subst h2
          subst h1
          exact Or.inr ⟨rfl, rfl, rfl, rfl, rfl⟩

/-- Field bookkeeping of `Remove`: either the empty error (state unchanged)
or success with the cache cleared and the duration fields untouched. -/
theorem remove_fields {p q : MediaPlaylist} {e : Option Err}
    (h : remove p = some (q, e)) :
    (q = p ∧ e = some Err.playlistEmpty)
    ∨ (e = none ∧ q.TargetDuration = p.TargetDuration
        ∧ q.targetDurLocked = p.targetDurLocked ∧ q.ver = p.ver ∧ q.buf = "") := by
  unfold remove at h
  split at h
  · simp only [Option.some.injEq, Prod.mk.injEq] at h
    exact Or.inl ⟨h.1.symm, h.2.symm⟩
  · split at h
    · exact absurd h (by simp)
    · simp only [Option.some.injEq, Prod.mk.injEq] at h
      obtain ⟨h1, h2⟩ := h
      subst h2
      subst h1
      exact Or.inr ⟨rfl, rfl, rfl, rfl, rfl⟩

/-- A locked target duration survives `Slide` and stays locked. -/
theorem slide_locked {p q : MediaPlaylist} {uri : String} {d : ℚ} {title : String}
    (hlock : p.targetDurLocked = true) (h : slide p uri d title = some q) :
    q.TargetDuration = p.TargetDuration ∧ q.targetDurLocked = true := by
  unfold slide at h
  cases hstep : (if ¬p.Closed = true ∧ p.count ≥ p.winsize then remove p
      else some (p, (none : Option Err))) with
  | none => rw [hstep] at h; exact absurd h (by simp)
  | some pr =>
    rw [hstep] at h
    obtain ⟨p1, e1⟩ := pr
    dsimp only at h
    have hp1 : p1.TargetDuration = p.TargetDuration ∧ p1.targetDurLocked = true := by
      by_cases hcond : ¬p.Closed = true ∧ p.count ≥ p.winsize
      · rw [if_pos hcond] at hstep
        rcases remove_fields hstep with ⟨h1, _⟩ | ⟨_, hTD, hLck, _, _⟩
        · rw [h1]; exact ⟨rfl, hlock⟩
        · exact ⟨hTD, by rw [hLck]; exact hlock⟩
      · rw [if_neg hcond] at hstep
        simp only [Option.some.injEq, Prod.mk.injEq] at hstep
        obtain ⟨hh, _⟩ := hstep
        rw [← hh]; exact ⟨rfl, hlock⟩
    unfold append at h
    cases happ : appendSegment p1 { URI := uri, Duration := d, Title := title } with
    | none => rw [happ] at h; exact absurd h (by simp)
    | some qr =>
      rw [happ] at h
      obtain ⟨q2, e2⟩ := qr
      dsimp only at h
      simp only [Option.some.injEq] at h
      subst h
      rcases appendSegment_fields happ with ⟨h1, _⟩ | ⟨_, hLck, _, _, hTD⟩
      · rw [h1]; exact hp1
      · constructor
        · rw [hTD, if_neg (not_not_intro hp1.2), hp1.1]
        · rw [hLck]; exact hp1.2

/-- Start state of the C4 counterexample: a fresh playlist of capacity 2. -/
def c4p0 : MediaPlaylist := (newMediaPlaylist 0 2).toOption.getD default

/-- Trace of the C4 counterexample: append durations 10 and 5, then remove
the duration-10 segment. -/
def c4Ops : List Op := [Op.append "a.ts" 10 "", Op.append "b.ts" 5 "", Op.remove]

/-- The C4 counterexample playlist: one live segment of duration 5 but a
target duration of 10. -/
def c4p : MediaPlaylist := (applyOps c4p0 c4Ops).getD c4p0

/-- Claim C4, counterexample.  Before any `SetTargetDuration` call the
claim wants `TargetDuration` to equal the live maximum; after removing the
duration-10 segment the only live segment has duration 5, yet the target
duration stays 10 (`Remove` never recomputes it). -/
theorem C4_targetduration_counterexample :
    newMediaPlaylist 0 2 = Except.ok c4p0
    ∧ applyOps c4p0 c4Ops = some c4p
    ∧ c4p.targetDurLocked = false
    ∧ c4p.TargetDuration = 10
    ∧ specLiveMaxTargetDuration c4p = 5 :=
  ⟨rfl, by decide, rfl, by decide, by decide⟩

/-- Claim C4, amended: once `SetTargetDuration` has locked the target
duration, `AppendSegment` (hence `Append`), `Remove` and `Slide` leave it
unchanged and locked; while unlocked, a successful `AppendSegment` folds
the new duration in through `calcNewTargetDuration` — it only ever grows
the running maximum — and `Remove` leaves the (possibly stale) value
untouched. -/
theorem C4_targetduration_amended (p : MediaPlaylist) :
    (p.targetDurLocked = true →
      (∀ seg q e, appendSegment p seg = some (q, e) →
          q.TargetDuration = p.TargetDuration ∧ q.targetDurLocked = true)
      ∧ (∀ q e, remove p = some (q, e) →
          q.TargetDuration = p.TargetDuration ∧ q.targetDurLocked = true)
      ∧ (∀ uri d title q, slide p uri d title = some q →
          q.TargetDuration = p.TargetDuration ∧ q.targetDurLocked = true))
    ∧ (p.targetDurLocked = false →
      (∀ seg q, appendSegment p seg = some (q, none) →
          q.TargetDuration = calcNewTargetDuration seg.Duration p.ver p.TargetDuration)
      ∧ (∀ q, remove p = some (q, none) → q.TargetDuration = p.TargetDuration)) := by
  constructor
  · intro hlock
    refine ⟨fun seg q e h => ?_, fun q e h => ?_, fun uri d title q h => slide_locked hlock h⟩
    · rcases appendSegment_fields h with ⟨h1, _⟩ | ⟨_, hLck, _, _, hTD⟩
      · rw [h1]; exact ⟨rfl, hlock⟩
      · exact ⟨by rw [hTD, if_neg (not_not_intro hlock)], by rw [hLck]; exact hlock⟩
    · rcases remove_fields h with ⟨h1, _⟩ | ⟨_, hTD, hLck, _, _⟩
      · rw [h1]; exact ⟨rfl, hlock⟩
      · exact ⟨hTD, by rw [hLck]; exact hlock⟩
  · intro hlock
    constructor
    · intro seg q h
      rcases appendSegment_fields h with ⟨_, hc⟩ | ⟨_, _, _, _, hTD⟩
      · exact absurd hc (by simp)
      · rw [hTD, if_pos]
        rw [hlock]
        simp
    · intro q h
      rcases remove_fields h with ⟨h1, _⟩ | ⟨_, hTD, _, _, _⟩
      · rw [h1]
      · exact hTD

/-! ### Claim C7 — encoder cache -/

/-- A rebuilt encoder buffer is never empty (it starts with `#EXTM3U`). -/
theorem renderMediaPlaylist_length {p : MediaPlaylist} {out : String}
    (h : renderMediaPlaylist p = some out) : 0 < out.length := by
  unfold renderMediaPlaylist at h
  dsimp only at h
  split at h
  · exact absurd h (by simp)
  · simp only [Option.some.injEq] at h
    subst h
    simp only [String.length_append]
    have h0 : 0 < ("#EXTM3U\n#EXT-X-VERSION:" : String).length := by decide
    omega

/-- `Encode` is stable: whatever it returns is cached, and encoding again
without an intervening mutation returns the identical bytes. -/
theorem encode_stable {p q : MediaPlaylist} {out : String}
    (h : encode p = some (q, out)) :
    q.buf = out ∧ encode q = some (q, out) := by
  unfold encode at h
  by_cases hb : p.buf.length > 0
  · rw [if_pos hb] at h
    simp only [Option.some.injEq, Prod.mk.injEq] at h
    obtain ⟨h1, h2⟩ := h
    subst h2
    subst h1
    exact ⟨rfl, by unfold encode; rw [if_pos hb]⟩
  · rw [if_neg hb] at h
    cases hr : renderMediaPlaylist p with
    | none => rw [hr] at h; exact absurd h (by simp)
    | some r =>
      rw [hr] at h
      dsimp only at h
      simp only [Option.some.injEq, Prod.mk.injEq] at h
      obtain ⟨h1, h2⟩ := h
      subst h2
      subst h1
      refine ⟨rfl, ?_⟩
      unfold encode
      rw [if_pos (show ({ p with buf := r } : MediaPlaylist).buf.length > 0 from
        renderMediaPlaylist_length hr)]

/-- Claim C7, amended: a cache hit returns bytes identical to the previous
encode (whatever `Encode` returns, encoding again without a mutation
returns the same bytes), and the ring mutators `AppendSegment` (hence
`Append`) and `Remove` do reset the cache on success; but not every
mutating operation resets it — see the counterexample. -/
theorem C7_cache_amended (p : MediaPlaylist) :
    (∀ q out, encode p = some (q, out) → q.buf = out ∧ encode q = some (q, out))
    ∧ (∀ seg q, appendSegment p seg = some (q, none) → q.buf = "")
    ∧ (∀ q, remove p = some (q, none) → q.buf = "") := by
  refine ⟨fun q out h => encode_stable h, fun seg q h => ?_, fun q h => ?_⟩
  · rcases appendSegment_fields h with ⟨_, hc⟩ | ⟨_, _, _, hb, _⟩
    · exact absurd hc (by simp)
    · exact hb
  · rcases remove_fields h with ⟨_, hc⟩ | ⟨_, _, _, _, hb⟩
    · exact absurd hc (by simp)
    · exact hb

/-- Start state of the C7 counterexample: winsize 3, capacity 5. -/
def c7p0 : MediaPlaylist := (newMediaPlaylist 3 5).toOption.getD default

/-- Trace of the C7 counterexample: one append, then an encode that
populates the cache. -/
def c7Ops : List Op := [Op.append "test.ts" 5 "", Op.encodeOp]

/-- The C7 counterexample playlist, with a populated cache. -/
def c7p : MediaPlaylist := (applyOps c7p0 c7Ops).getD c7p0

/-- The C7 playlist after `SetTargetDuration 100` — a mutation that does
not reset the cache. -/
def c7q : MediaPlaylist := setTargetDuration c7p 100

/-- The bytes cached by the first encode of the C7 trace. -/
def c7buf : String :=
  "#EXTM3U\n#EXT-X-VERSION:3\n#EXT-X-MEDIA-SEQUENCE:0\n#EXT-X-TARGETDURATION:5\n#EXTINF:5.000,\ntest.ts\n"

/-- Claim C7, counterexample.  `SetTargetDuration` mutates the playlist but
does not reset the cache: the following `Encode` returns the stale bytes
still announcing `#EXT-X-TARGETDURATION:5` although the target duration is
now 100 — so not every mutating operation resets the cached buffer, and an
encode after a mutation need not reflect the mutated state. -/
theorem C7_cache_counterexample :
    newMediaPlaylist 3 5 = Except.ok c7p0
    ∧ applyOps c7p0 c7Ops = some c7p
    ∧ c7p.buf = c7buf
    ∧ c7q.TargetDuration = 100
    ∧ encode c7q = some (c7q, c7buf)
    ∧ containsSub c7buf "#EXT-X-TARGETDURATION:100" = false
    ∧ containsSub c7buf "#EXT-X-TARGETDURATION:5" = true :=
  ⟨rfl, by with_unfolding_all rfl, by with_unfolding_all rfl, by with_unfolding_all rfl,
    by with_unfolding_all rfl, by decide, by decide⟩

/-! ### Claim C1 — encode windowing -/

/-- Written from the spec's words (for comparison with the encoder): the
text of `n` consecutive live segments starting at window offset `off`. -/
def windowText (p : MediaPlaylist) (off : Nat) : Nat → String
  | 0 => ""
  | n + 1 =>
    (match liveSeg p off with
     | some s => renderSegment p s
     | none => "") ++ windowText p (off + 1) n

/-- One unfolding step of `windowText`. -/
theorem windowText_succ (p : MediaPlaylist) (off n : Nat) :
    windowText p off (n + 1)
      = (match liveSeg p off with
         | some s => renderSegment p s
         | none => "") ++ windowText p (off + 1) n := rfl

/-- On an invariant-satisfying ring with a positive window, the encoder's
segment loop starting at window offset `off` with `i` segments already
emitted produces the text of the next `min (winsize - i) rem` live
segments — the oldest ones, from the head. -/
theorem renderSegmentsLoop_window {p : MediaPlaylist} (hInv : Inv p) (hcap : 0 < p.capacity)
    (hw : 0 < p.winsize) :
    ∀ (rem off i : Nat), off + rem ≤ p.count →
      renderSegmentsLoop p ((p.head + off) % p.capacity) i rem
        = some (windowText p off (min (p.winsize - i) rem)) := by
  intro rem
  induction rem with
  | zero =>
    intro off i _
    rw [Nat.min_zero]
    rfl
  | succ n ih =>
    intro off i hle
    have hoff : off < p.count := by omega
    obtain ⟨base, hbase⟩ := hInv.seqs
    obtain ⟨s, hs, _⟩ := hbase off hoff
    have hls : liveSeg p off = some s := hs
    unfold renderSegmentsLoop
    by_cases hi : i < p.winsize
    · rw [if_pos (Or.inl hi)]
      unfold liveSeg at hs
      revert hs
      cases hlook : p.Segments[(p.head + off) % p.capacity]? with
      | none => intro hs; exact absurd hs (by simp)
      | some segOpt =>
        cases segOpt with
        | none => intro hs; exact absurd hs (by simp)
        | some t =>
          intro hs
          simp only [Option.some.injEq] at hs
          subst hs
          dsimp only
          rw [if_neg (show ¬p.capacity = 0 by omega)]
          rw [if_pos hw, Nat.mod_add_mod, Nat.add_assoc]
          rw [ih (off + 1) (i + 1) (by omega)]
          simp only [Option.map_some']
          have hmin : min (p.winsize - i) (n + 1) = min (p.winsize - (i + 1)) n + 1 := by
            omega
          rw [hmin, windowText_succ, hls]
    · rw [if_neg (by rintro (hlt | hzero) <;> omega)]
      have hmin : min (p.winsize - i) (n + 1) = 0 := by omega
      rw [hmin]
      rfl

/-- Start state of the S1 scenario: winsize 3, capacity 50. -/
def s1p0 : MediaPlaylist := (newMediaPlaylist 3 50).toOption.getD default

/-- The five appends of the S1 scenario. -/
def s1Ops : List Op :=
  [Op.append "test0.ts" 5 "", Op.append "test1.ts" 5 "", Op.append "test2.ts" 5 "",
   Op.append "test3.ts" 5 "", Op.append "test4.ts" 5 ""]

/-- The S1 playlist after the five appends. -/
def s1p : MediaPlaylist := (applyOps s1p0 s1Ops).getD s1p0

/-- The bytes `Encode` actually produces in the S1 scenario. -/
def s1Out : String :=
  "#EXTM3U\n#EXT-X-VERSION:3\n#EXT-X-MEDIA-SEQUENCE:0\n#EXT-X-TARGETDURATION:5\n#EXTINF:5.000,\ntest0.ts\n#EXTINF:5.000,\ntest1.ts\n#EXTINF:5.000,\ntest2.ts\n"

/-- Claim C1, counterexample.  In the S1 scenario the encoder emits the
FIRST three (oldest) segments `test0.ts`, `test1.ts`, `test2.ts` with
`#EXT-X-MEDIA-SEQUENCE:0` — not the last three with media sequence 2 as
claimed: `test3.ts`, `test4.ts` and `#EXT-X-MEDIA-SEQUENCE:2` are absent
from the output. -/
theorem C1_window_counterexample :
    newMediaPlaylist 3 50 = Except.ok s1p0
    ∧ applyOps s1p0 s1Ops = some s1p
    ∧ (encode s1p).map (fun r => r.2) = some s1Out
    ∧ containsSub s1Out "test3.ts" = false
    ∧ containsSub s1Out "test4.ts" = false
    ∧ containsSub s1Out "#EXT-X-MEDIA-SEQUENCE:2" = false :=
  ⟨rfl, by with_unfolding_all rfl, by with_unfolding_all rfl,
    by decide, by decide, by decide⟩

/-- Claim C1, amended: with `winsize > 0` the encoder emits exactly the
first `min winsize count` live segments — the oldest ones, starting at the
ring head — not the last `winsize`; in the S1 scenario the output therefore
contains `test0.ts`, `test1.ts`, `test2.ts`, `#EXT-X-MEDIA-SEQUENCE:0` and
`#EXT-X-TARGETDURATION:5`. -/
theorem C1_window_amended :
    (∀ p : MediaPlaylist, Reachable p → 0 < p.winsize →
      renderSegmentsLoop p p.head 0 p.count
        = some (windowText p 0 (min p.winsize p.count)))
    ∧ (encode s1p).map (fun r => r.2) = some s1Out
    ∧ containsSub s1Out "test0.ts" = true
    ∧ containsSub s1Out "test1.ts" = true
    ∧ containsSub s1Out "test2.ts" = true
    ∧ containsSub s1Out "#EXT-X-MEDIA-SEQUENCE:0" = true
    ∧ containsSub s1Out "#EXT-X-TARGETDURATION:5" = true := by
  refine ⟨?_, by with_unfolding_all rfl, by decide, by decide, by decide, by decide, by decide⟩
  intro p h hw
  have hInv := inv_reachable h
  by_cases hcap : 0 < p.capacity
  · have hwin := renderSegmentsLoop_window hInv hcap hw p.count 0 0 (by omega)
    rw [Nat.add_zero, Nat.mod_eq_of_lt (hInv.head_lt hcap)] at hwin
    rw [hwin, Nat.sub_zero]
  · have hc0 : p.count = 0 := by
      have := hInv.count_le
      omega
    rw [hc0, Nat.min_zero]
    rfl

/-! ### Claim C2 — decode/encode round trip -/

/-- A decoder-accepted playlist that is not byte-stable: it lacks the
version and media-sequence lines the encoder always writes. -/
def c2Input : String :=
  "#EXTM3U\n#EXT-X-TARGETDURATION:5\n#EXTINF:5.000,\ntest.ts\n#EXT-X-ENDLIST\n"

/-- The media playlist decoded (strictly, without error) from
`c2Input`. -/
def c2m : MediaPlaylist :=
  match decode c2Input true with
  | some ⟨some (.media m), _, _⟩ => m
  | _ => default

/-- What the encoder actually produces for `c2m`: the canonical form of
`c2Input`. -/
def c2Canon : String :=
  "#EXTM3U\n#EXT-X-VERSION:3\n#EXT-X-MEDIA-SEQUENCE:0\n#EXT-X-TARGETDURATION:5\n#EXTINF:5.000,\ntest.ts\n#EXT-X-ENDLIST\n"

/-- The media playlist decoded (strictly, without error) from
`c2Canon`. -/
def c2canonM : MediaPlaylist :=
  match decode c2Canon true with
  | some ⟨some (.media m), _, _⟩ => m
  | _ => default

/-- Claim C2, counterexample.  `c2Input` is accepted by the strict
auto-detecting decoder with no error and contains no CRLF (normalization is
the identity on it), yet re-encoding produces `c2Canon`, which differs from
the input: the encoder inserts `#EXT-X-VERSION` and
`#EXT-X-MEDIA-SEQUENCE` lines the input did not have. -/
theorem C2_roundtrip_counterexample :
    decode c2Input true = some ⟨some (.media c2m), .MEDIA, none⟩
    ∧ String.mk (normalizeCRLF c2Input.data) = c2Input
    ∧ (encode c2m).map (fun r => r.2) = some c2Canon
    ∧ c2Canon ≠ c2Input :=
  ⟨by with_unfolding_all rfl, rfl, by with_unfolding_all rfl, by decide⟩

/-- Claim C2, amended: decode→encode is not byte-identical on every
accepted input, but the encoder's output is already canonical — decoding
`c2Canon` (the re-encoding of the counterexample input) and encoding again
reproduces `c2Canon` byte for byte. -/
theorem C2_roundtrip_amended :
    decode c2Canon true = some ⟨some (.media c2canonM), .MEDIA, none⟩
    ∧ (encode c2canonM).map (fun r => r.2) = some c2Canon
    ∧ String.mk (normalizeCRLF c2Canon.data) = c2Canon :=
  ⟨by with_unfolding_all rfl, by with_unfolding_all rfl, rfl⟩

/-! ### Claim C6 — window size after decode -/

/-- An early return of the decode line loop always carries an error. -/
theorem decodeLoop_early_err {strict : Bool} :
    ∀ (chunks : List (List Char)) (ma : MasterPlaylist) (me : MediaPlaylist)
      (st : decodingState) (r : DecodeResult),
      decodeLoop strict chunks ma me st = some (.early r) → r.err ≠ none := by
  intro chunks
  induction chunks with
  | nil =>
    intro ma me st r h
    simp only [decodeLoop] at h
    exact absurd h (by simp)
  | cons c rest ih =>
    intro ma me st r h
    unfold decodeLoop at h
    dsimp only at h
    by_cases hblank : trimLineEnd c = []
    · rw [if_pos hblank] at h
      exact ih _ _ _ _ h
    · rw [if_neg hblank] at h
      cases hm : (if st.listType ≠ ListType.MEDIA
          then decodeLineOfMasterPlaylist ma st (trimLineEnd c) strict
          else some (ma, st, none)) with
      | none => rw [hm] at h; exact absurd h (by simp)
      | some trip =>
        rw [hm] at h
        obtain ⟨ma1, st1, errM⟩ := trip
        dsimp only at h
        by_cases hs1 : strict = true ∧ errM ≠ none
        · rw [if_pos hs1] at h
          simp only [Option.some.injEq] at h
          injection h with h1
          subst h1
          exact hs1.2
        · rw [if_neg hs1] at h
          cases he : (if st1.listType ≠ ListType.MASTER
              then decodeLineOfMediaPlaylist me st1 (trimLineEnd c) strict
              else some (me, st1, none)) with
          | none => rw [he] at h; exact absurd h (by simp)
          | some trip2 =>
            rw [he] at h
            obtain ⟨me1, st2, errE⟩ := trip2
            dsimp only at h
            by_cases hs2 : strict = true ∧ errE ≠ none
            · rw [if_pos hs2] at h
              simp only [Option.some.injEq] at h
              injection h with h1
              subst h1
              exact hs2.2
            · rw [if_neg hs2] at h
              exact ih _ _ _ _ h

/-- Claim C6, amended: when the auto-detecting decoder returns a media
playlist without error, the window size is 0 exactly for playlists that are
closed (`#EXT-X-ENDLIST` seen) or of EVENT playlist type — a VoD-typed
playlist without `#EXT-X-ENDLIST` keeps the default window (see the
counterexample). -/
theorem C6_winsize_amended (input : String) (strict : Bool) (r : DecodeResult)
    (h : decode input strict = some r) (herr : r.err = none)
    (m : MediaPlaylist) (hpl : r.playlist = some (.media m))
    (hvod : m.Closed = true ∨ m.MediaType = .EVENT) :
    m.winsize = 0 := by
  unfold decode at h
  dsimp only at h
  split at h
  · simp only [Option.some.injEq] at h
    subst h
    simp at hpl
  · rename_i media0 hnm
    cases hloop : decodeLoop strict (readChunks [] input.data) newMasterPlaylist media0
        ({} : decodingState) with
    | none =>
      rw [hloop] at h
      exact absurd h (by simp)
    | some outcome =>
      rw [hloop] at h
      cases outcome with
      | early r1 =>
        simp only [Option.some.injEq] at h
        subst h
        exact absurd herr (decodeLoop_early_err _ _ _ _ _ hloop)
      | done ma me st =>
        dsimp only at h
        split at h
        · simp only [Option.some.injEq] at h
          subst h
          simp at hpl
        · split at h
          · simp only [Option.some.injEq] at h
            subst h
            simp at hpl
          · split at h
            · simp only [Option.some.injEq] at h
              subst h
              simp at hpl
            · simp only [Option.some.injEq] at h
              subst h
              simp only [Option.some.injEq, Playlist.media.injEq] at hpl
              by_cases hcond : me.Closed = true ∨ me.MediaType = .EVENT
              · rw [if_pos hcond] at hpl
                have hsw : setWinSize me 0 = .ok { me with winsize := 0 } := by
                  unfold setWinSize
                  rw [if_neg (show ¬0 > me.capacity by omega)]
                rw [hsw] at hpl
                dsimp only at hpl
                rw [← hpl]
              · rw [if_neg hcond] at hpl
                exact absurd (hpl ▸ hvod) hcond
          · simp only [Option.some.injEq] at h
            subst h
            simp at hpl

/-- A VoD-typed playlist without `#EXT-X-ENDLIST`. -/
def vodInput : String :=
  "#EXTM3U\n#EXT-X-PLAYLIST-TYPE:VOD\n#EXT-X-TARGETDURATION:5\n#EXTINF:5.000,\ntest.ts\n"

/-- The media playlist decoded (laxly, without error) from `vodInput`. -/
def c6vod : MediaPlaylist :=
  match decode vodInput false with
  | some ⟨some (.media m), _, _⟩ => m
  | _ => default

/-- Claim C6, counterexample.  The claim includes EXT-X-PLAYLIST-TYPE VOD
among the playlists whose window is forced to 0, but the decoder only
treats closed (`#EXT-X-ENDLIST`) or EVENT-typed playlists specially: a
VoD-typed playlist without `#EXT-X-ENDLIST` comes back with the default
window size 8, so a subsequent encode would window its segments. -/
theorem C6_winsize_counterexample :
    decode vodInput false = some ⟨some (.media c6vod), .MEDIA, none⟩
    ∧ c6vod.MediaType = .VOD
    ∧ c6vod.Closed = false
    ∧ c6vod.winsize = 8 :=
  ⟨by with_unfolding_all rfl, by with_unfolding_all rfl, by with_unfolding_all rfl,
    by with_unfolding_all rfl⟩

/-- The media playlist decoded (laxly, without error) from `c2Input`,
which ends with `#EXT-X-ENDLIST`. -/
def c6m : MediaPlaylist :=
  match decode c2Input false with
  | some ⟨some (.media m), _, _⟩ => m
  | _ => default

/-- The decode result the C6 witness instantiates the amended claim at. -/
def c6r : DecodeResult := ⟨some (.media c6m), .MEDIA, none⟩

/-- Claim C6, witness: the closed playlist decoded from `c2Input` has
window size 0. -/
theorem C6_winsize_witness : c6m.winsize = 0 :=
  C6_winsize_amended c2Input false c6r (by with_unfolding_all rfl) rfl c6m rfl
    (Or.inl (by with_unfolding_all rfl))

end M3u8
